import Mathlib

/-!
# A verification development for `superloach/gs`

`gs` is a Go binding to the JavaScript host of a WebAssembly module.  Every
JavaScript value is named on the Go side by a 64-bit word, a `Ref`, and every
operation on such a value is a call through a small set of host imports.

The embedding below follows the Go source:

* a `Ref` is a natural number (a `uint64`; the functions below only ever look
  at the bits the source looks at);
* a `float64` is its IEEE-754 bit pattern, a natural number below `2 ^ 64`;
  the two comparisons the source makes on doubles (`f == 0`, `f != f`) are
  given by `float64.eq`;
* the host imports (`valueGet`, `valueInvoke`, ...) are answered by a `Host`,
  whose answers may depend on every crossing made so far; a computation is a
  function from the list of crossings made so far to an outcome and the
  extended list;
* a Go `panic` is an outcome of its own, and so is running out of fuel, which
  stands for a recursion that does not end.
-/

namespace gs

set_option linter.dupNamespace false

/-! ## References and values (`value.go`) -/

/-- A `Ref` identifies a JavaScript value (`type Ref uint64`). -/
abbrev Ref := Nat

/-- The upper 32 bits of a ref that is not encoded as an IEEE 754 number. -/
def NaNHead : Nat := 0x7FF80000

def TypeFlagNone : Nat := 0
def TypeFlagObject : Nat := 1
def TypeFlagString : Nat := 2
def TypeFlagSymbol : Nat := 3
def TypeFlagFunction : Nat := 4

/-- A `Value` is a ref and the cell that carries its finalizer, when it has one
(`GCPtr *Ref`: `none` is the nil pointer, `some r` a cell holding `r`). -/
structure Value where
  Ref : gs.Ref
  GCPtr : Option gs.Ref
deriving DecidableEq, Repr

/-- The interface `Valuer`: anything with a `ValueOf() Value` method.  Every
implementation in the package returns a stored `Value`. -/
structure Valuer where
  ValueOf : Value
deriving DecidableEq, Repr

/-- The source's `MakeValue(r)`: the finalizer cell is allocated for a NaN-headed ref with a
type flag other than none. -/
def MakeValue (r : Ref) : Value :=
  let typeFlag := (r >>> 32) &&& 7
  if (r >>> 32) &&& NaNHead = NaNHead ∧ typeFlag ≠ TypeFlagNone then
    { Ref := r, GCPtr := some r }
  else
    { Ref := r, GCPtr := none }

/-- The source's `PredefValue(id uint32, typeFlag byte)`; the arguments are read at their
Go widths, and the result is a `uint64`. -/
def PredefValue (id : Nat) (typeFlag : Nat) : Value :=
  { Ref := (((NaNHead ||| (typeFlag % 2 ^ 8)) <<< 32) ||| (id % 2 ^ 32)) % 2 ^ 64,
    GCPtr := none }

def ValueNaN : Value := PredefValue 0 TypeFlagNone
def ValueZero : Value := PredefValue 1 TypeFlagNone

/-- The source's `Undefined` of `undefined.go`. -/
def Undefined : Value := { Ref := 0, GCPtr := none }
/-- The source's `Null` of `null.go`. -/
def Null : Value := PredefValue 2 TypeFlagNone
/-- The facade `Boolean` of `boolean.go`. -/
structure Boolean where
  Value : Value
deriving DecidableEq, Repr
/-- The source's `True` of `boolean.go`. -/
def Boolean.True : Boolean := { Value := PredefValue 3 TypeFlagNone }
/-- The source's `False` of `boolean.go`. -/
def Boolean.False : Boolean := { Value := PredefValue 4 TypeFlagNone }

/-! ## Doubles as bit patterns -/

namespace float64

/-- The eleven exponent bits of a double. -/
def exponent (f : Nat) : Nat := (f / 2 ^ 52) % 2 ^ 11

/-- The fifty-two fraction bits of a double. -/
def fraction (f : Nat) : Nat := f % 2 ^ 52

/-- A double is a NaN when its exponent is all ones and its fraction is not zero. -/
def isNaN (f : Nat) : Bool := exponent f == 2047 && fraction f != 0

/-- A double is a zero (`+0` or `-0`) when every bit but the sign bit is zero. -/
def isZero (f : Nat) : Bool := f % 2 ^ 63 == 0

/-- The IEEE-754 comparison `a == b` of Go and of JavaScript's `===` on numbers:
a NaN equals nothing, the two zeros are equal, and any other two doubles are
equal exactly when their bits are. -/
def eq (a b : Nat) : Bool :=
  !isNaN a && !isNaN b && (a == b || (isZero a && isZero b))

/-- The bits of the constant `0`. -/
def zero : Nat := 0

/-- The bits of `-0`. -/
def negZero : Nat := 2 ^ 63

end float64

/-- The source's `FloatValue(f)`. -/
def FloatValue (f : Nat) : Value :=
  if float64.eq f float64.zero then ValueZero
  else if !float64.eq f f then ValueNaN
  else { Ref := f, GCPtr := none }

/-- The source's `v.Equal(w)`. -/
def Value.Equal (v w : Value) : Bool :=
  v.Ref == w.Ref && v.Ref != ValueNaN.Ref

def Value.IsUndefined (v : Value) : Bool := v.Ref == Undefined.Ref
def Value.IsNull (v : Value) : Bool := v.Ref == Null.Ref
def Value.IsNaN (v : Value) : Bool := v.Ref == ValueNaN.Ref

/-- The source's `v.IsNumber()`. -/
def Value.IsNumber (v : Value) : Bool :=
  v.Ref == ValueZero.Ref ||
    v.Ref == ValueNaN.Ref ||
    (v.Ref != Undefined.Ref && (v.Ref >>> 32) &&& NaNHead != NaNHead)

/-- The JavaScript type of a value (`type Type int` and its nine constants). -/
inductive ValueType where
  | TypeUndefined
  | TypeNull
  | TypeBoolean
  | TypeNumber
  | TypeString
  | TypeSymbol
  | TypeObject
  | TypeFunction
  | TypeBigInt
deriving DecidableEq, Repr

export ValueType (TypeUndefined TypeNull TypeBoolean TypeNumber TypeString TypeSymbol
  TypeObject TypeFunction TypeBigInt)

/-- The source's `t.String()`; the nine constants are all of `Type` here, so the `default`
arm of the source is not reached. -/
def ValueType.String : ValueType → String
  | TypeUndefined => "undefined"
  | TypeNull => "null"
  | TypeBoolean => "boolean"
  | TypeNumber => "number"
  | TypeString => "string"
  | TypeSymbol => "symbol"
  | TypeObject => "object"
  | TypeFunction => "function"
  | TypeBigInt => "bigint"

/-- The source's `t.IsObject()`. -/
def ValueType.IsObject (t : ValueType) : Bool :=
  t == TypeObject || t == TypeFunction

/-- A `ValueError` names the method and the type it was called on (the field
`Ty` is the source's `Type`). -/
structure ValueError where
  Method : String
  Ty : ValueType
deriving DecidableEq, Repr

/-- The source's `e.Error()` of `*ValueError`. -/
def ValueError.Error (e : ValueError) : String :=
  "syscall/js: call of " ++ e.Method ++ " on " ++ e.Ty.String

/-! ## The host boundary

Each `//go:linkname` import of the source is one kind of crossing.  The host
is deterministic but stateful: what it answers may depend on every crossing
made before. -/

/-- One call through a host import, with the arguments it was made with. -/
inductive Crossing where
  | finalizeRef (r : Ref)
  | stringVal (x : String)
  | valueGet (v : Ref) (p : String)
  | valueSet (v : Ref) (p : String) (x : Ref)
  | valueDelete (v : Ref) (p : String)
  | valueIndex (v : Ref) (i : Int)
  | valueSetIndex (v : Ref) (i : Int) (x : Ref)
  | valueLength (v : Ref)
  | valueInvoke (v : Ref) (args : List Ref)
  | valueNew (v : Ref) (args : List Ref)
  | valuePrepareString (v : Ref)
  | valueLoadString (v : Ref) (n : Nat)
deriving DecidableEq, Repr

/-- What the host answers to each import that returns something, given the
crossings made so far. -/
structure Host where
  stringVal : List Crossing → String → Ref
  valueGet : List Crossing → Ref → String → Ref
  valueIndex : List Crossing → Ref → Int → Ref
  valueLength : List Crossing → Ref → Int
  valueInvoke : List Crossing → Ref → List Ref → Ref × Bool
  valueNew : List Crossing → Ref → List Ref → Ref × Bool
  valuePrepareString : List Crossing → Ref → Ref × Int
  valueLoadString : List Crossing → Ref → Nat → String

/-- The value a Go `panic` carries: a string, a `*ValueError`, or a run-time
error of the Go runtime. -/
inductive PanicValue where
  | str (s : String)
  | valueError (e : ValueError)
  | runtimeError (s : String)
deriving DecidableEq, Repr

/-- How a computation ends: it returns, it panics, or the recursion was cut
(which stands for a run that does not end). -/
inductive Outcome (α : Type) where
  | ok (a : α)
  | panic (p : PanicValue)
  | outOfFuel
deriving DecidableEq, Repr

/-- A computation of the module: from the crossings made so far to an outcome
and the crossings made by then. -/
def Exec (α : Type) : Type := List Crossing → Outcome α × List Crossing

def Exec.pure {α : Type} (a : α) : Exec α := fun t => (.ok a, t)

def Exec.bind {α β : Type} (m : Exec α) (f : α → Exec β) : Exec β := fun t =>
  match m t with
  | (.ok a, t') => f a t'
  | (.panic p, t') => (.panic p, t')
  | (.outOfFuel, t') => (.outOfFuel, t')

instance : Monad Exec where
  pure := Exec.pure
  bind := Exec.bind

/-- A Go `panic(p)`. -/
def goPanic {α : Type} (p : PanicValue) : Exec α := fun t => (.panic p, t)

/-- The recursion was cut. -/
def outOfFuel {α : Type} : Exec α := fun t => (.outOfFuel, t)

def finalizeRef (r : Ref) : Exec Unit := fun t =>
  (.ok (), t ++ [.finalizeRef r])

def stringVal (h : Host) (x : String) : Exec Ref := fun t =>
  (.ok (h.stringVal t x), t ++ [.stringVal x])

def valueGet (h : Host) (v : Ref) (p : String) : Exec Ref := fun t =>
  (.ok (h.valueGet t v p), t ++ [.valueGet v p])

def valueSet (v : Ref) (p : String) (x : Ref) : Exec Unit := fun t =>
  (.ok (), t ++ [.valueSet v p x])

def valueDelete (v : Ref) (p : String) : Exec Unit := fun t =>
  (.ok (), t ++ [.valueDelete v p])

def valueIndex (h : Host) (v : Ref) (i : Int) : Exec Ref := fun t =>
  (.ok (h.valueIndex t v i), t ++ [.valueIndex v i])

def valueSetIndex (v : Ref) (i : Int) (x : Ref) : Exec Unit := fun t =>
  (.ok (), t ++ [.valueSetIndex v i x])

def valueLength (h : Host) (v : Ref) : Exec Int := fun t =>
  (.ok (h.valueLength t v), t ++ [.valueLength v])

def valueInvoke (h : Host) (v : Ref) (args : List Ref) : Exec (Ref × Bool) := fun t =>
  (.ok (h.valueInvoke t v args), t ++ [.valueInvoke v args])

def valueNew (h : Host) (v : Ref) (args : List Ref) : Exec (Ref × Bool) := fun t =>
  (.ok (h.valueNew t v args), t ++ [.valueNew v args])

def valuePrepareString (h : Host) (v : Ref) : Exec (Ref × Int) := fun t =>
  (.ok (h.valuePrepareString t v), t ++ [.valuePrepareString v])

/-- The source's `valueLoadString(v, b)` fills the buffer `b`; the answer is the content of
the buffer afterwards, read as a string. -/
def valueLoadString (h : Host) (v : Ref) (n : Nat) : Exec String := fun t =>
  (.ok (h.valueLoadString t v n), t ++ [.valueLoadString v n])

/-! ## Facades (`function.go`, `object.go`, `string.go`, `global.go`) -/

/-- The source's `Function`: a value and the ID of the Go function it wraps. -/
structure Function where
  Value : Value
  id : Nat
deriving DecidableEq, Repr

/-- The source's `Object`: a value and a cache of resolved methods (`map[string]Function`,
`none` for the nil map). -/
structure Object where
  Value : Value
  methods : Option (List (String × Function))
deriving DecidableEq, Repr

/-- The source's `MethodError`. -/
structure MethodError where
  Method : String
deriving DecidableEq, Repr

/-- The source's `m.Error()` of `MethodError`. -/
def MethodError.Error (m : MethodError) : String :=
  "no such method " ++ m.Method

/-- The source's `Error` wraps a JavaScript error object. -/
structure Error where
  Object : Object
deriving DecidableEq, Repr

/-- The values of the interface `error` that the package makes. -/
inductive error where
  | MethodError (e : MethodError)
  | Error (e : gs.Error)
deriving DecidableEq, Repr

/-- The facade `String` of `string.go`. -/
structure JSString where
  Object : Object
deriving DecidableEq, Repr

/-- The source's `Global` of `global.go`. -/
def Global : Object := { Value := PredefValue 5 TypeFlagObject, methods := none }

/-- The package variables that are set from the host when the program starts. -/
structure Globals where
  Reflect : Object
  constructorProperty : JSString
  ObjectConstructor : Function
  ArrayConstructor : Function
  Console : Object
  Go : Object
  releasedErrMsg : JSString

/-- The source's `MakeArgs(args)`: the values of the arguments and their refs, in order. -/
def MakeArgs (args : List Valuer) : List Value × List Ref :=
  (args.map (fun arg => arg.ValueOf), args.map (fun arg => arg.ValueOf.Ref))

/-- The source's `o.Get(p)`: one `valueGet` crossing, with no check of the receiver. -/
def Object.Get (h : Host) (o : Object) (p : String) : Exec gs.Value := do
  let r ← valueGet h o.Value.Ref p
  pure (MakeValue r)

/-- The source's `jsString(v)`. -/
def jsString (h : Host) (v : Value) : Exec String := do
  let (str, length) ← valuePrepareString h v.Ref
  if length < 0 then
    goPanic (.runtimeError "makeslice: len out of range")
  else do
    let b ← valueLoadString h str length.toNat
    finalizeRef str
    pure b

/-! The functions from here to `Value.TypeOf` call `v.Type()` and are called
by it; they take the type function `ty` they call as an argument, and
`Value.TypeOf` ties the knot. -/

/-- The source's `ObjectOf(v)`. -/
def ObjectOfWith (ty : Value → Exec ValueType) (v : Valuer) : Exec (Object × Bool) := do
  let vv := v.ValueOf
  let t ← ty vv
  if !t.IsObject then
    pure ({ Value := { Ref := 0, GCPtr := none }, methods := none }, false)
  else
    pure ({ Value := vv, methods := none }, true)

/-- The source's `FunctionOf(v)`. -/
def FunctionOfWith (ty : Value → Exec ValueType) (v : Valuer) : Exec (Function × Bool) := do
  let vv := v.ValueOf
  let t ← ty vv
  if t ≠ TypeFunction then
    pure ({ Value := { Ref := 0, GCPtr := none }, id := 0 }, false)
  else
    pure ({ Value := vv, id := 0 }, true)

/-- The source's `v.String()`. -/
def Value.StringWith (h : Host) (ty : Value → Exec ValueType) (v : Value) : Exec String := do
  let t ← ty v
  match t with
  | TypeString => jsString h v
  | TypeUndefined => pure "<undefined>"
  | TypeNull => pure "<null>"
  | TypeBoolean => do
    let s ← jsString h v
    pure ("<boolean: " ++ s ++ ">")
  | TypeNumber => do
    let s ← jsString h v
    pure ("<number: " ++ s ++ ">")
  | TypeSymbol => pure "<symbol>"
  | TypeObject => pure "<object>"
  | TypeFunction => pure "<function>"
  | TypeBigInt => goPanic (.str "bad type")

/-- The source's `e.Error()` of `Error`. -/
def Error.ErrorWith (h : Host) (ty : Value → Exec ValueType) (e : Error) : Exec String := do
  let m ← e.Object.Get h "message"
  let s ← m.StringWith h ty
  pure ("JavaScript error: " ++ s)

/-- The source's `err.Error()` on a value of the interface `error`. -/
def error.ErrorWith (h : Host) (ty : Value → Exec ValueType) : error → Exec String
  | .MethodError e => pure e.Error
  | .Error e => e.ErrorWith h ty

/-- What `Invoke`, `New` and `Call` do with the pair the host returned. -/
def resultOf (ty : Value → Exec ValueType) (res : Ref) (ok : Bool) :
    Exec (Value × Option error) := do
  let val := MakeValue res
  if !ok then do
    let (err, ok) ← ObjectOfWith ty { ValueOf := val }
    if !ok then
      goPanic (.str "non-object error")
    else
      pure (Undefined, some (.Error { Object := err }))
  else
    pure (val, none)

/-- The source's `o.Call(m, args...)`.  The cache `o.methods` is the receiver's copy: a nil
map is replaced by a fresh one for the length of the call, and the store
`o.methods[m] = fn` is seen by nothing the call does afterwards. -/
def Object.CallWith (h : Host) (ty : gs.Value → Exec ValueType) (o : Object) (m : String)
    (args : List Valuer) : Exec (gs.Value × Option error) := do
  let (_, argRefs) := MakeArgs args
  let methods := match o.methods with
    | none => []
    | some ms => ms
  match methods.lookup m with
  | some fn => do
    let (res, ok) ← valueInvoke h fn.Value.Ref argRefs
    resultOf ty res ok
  | none => do
    let p ← o.Get h m
    let (fn, ok) ← FunctionOfWith ty { ValueOf := p }
    if !ok then
      pure (Undefined, some (.MethodError { Method := m }))
    else do
      let (res, ok) ← valueInvoke h fn.Value.Ref argRefs
      resultOf ty res ok

/-- The source's `f.Invoke(args...)`. -/
def Function.InvokeWith (h : Host) (ty : gs.Value → Exec ValueType) (f : Function)
    (args : List Valuer) : Exec (gs.Value × Option error) := do
  let (_, argRefs) := MakeArgs args
  let (res, ok) ← valueInvoke h f.Value.Ref argRefs
  resultOf ty res ok

/-- The source's `f.New(args...)`. -/
def Function.NewWith (h : Host) (ty : gs.Value → Exec ValueType) (f : Function)
    (args : List Valuer) : Exec (gs.Value × Option error) := do
  let (_, argRefs) := MakeArgs args
  let (res, ok) ← valueNew h f.Value.Ref argRefs
  resultOf ty res ok

/-- The source's `r.Constructor(v)` of `ReflectType` (`reflect.go`). -/
def ReflectType.ConstructorWith (h : Host) (ty : Value → Exec ValueType) (r : Object)
    (v : Valuer) : Exec Object := do
  let (con, err) ← r.CallWith h ty "constructor" [{ ValueOf := v.ValueOf }]
  match err with
  | some e => do
    let msg ← e.ErrorWith h ty
    goPanic (.str ("constructor: " ++ msg))
  | none => do
    let (o, ok) ← ObjectOfWith ty { ValueOf := con }
    if !ok then
      goPanic (.str "not object")
    else
      pure o

/-- The source's `r.Get(o, p)` of `ReflectType` (`reflect.go`). -/
def ReflectType.GetWith (h : Host) (ty : Value → Exec ValueType) (r : Object)
    (o : Object) (p : JSString) : Exec Value := do
  let (v, err) ← r.CallWith h ty "get" [{ ValueOf := o.Value }, { ValueOf := p.Object.Value }]
  match err with
  | some e => do
    let msg ← e.ErrorWith h ty
    goPanic (.str ("get: " ++ msg))
  | none => pure v

/-- The source's `v.Type()`.  The reserved refs, the numbers and the four type flags are
decided on the ref alone.  Any other ref goes to the host: the constructor of
the value is compared with the host's `BigInt`.  The calls made on that path
ask for the type of what the host returns, so the recursion is cut by `fuel`. -/
def Value.TypeOf (g : Globals) (h : Host) : Nat → Value → Exec ValueType
  | fuel, v =>
    if v.Ref = Undefined.Ref then pure TypeUndefined
    else if v.Ref = Null.Ref then pure TypeNull
    else if v.Ref = Boolean.True.Value.Ref ∨ v.Ref = Boolean.False.Value.Ref then
      pure TypeBoolean
    else if v.IsNumber then pure TypeNumber
    else
      let typeFlag := (v.Ref >>> 32) &&& 7
      if typeFlag = TypeFlagObject then pure TypeObject
      else if typeFlag = TypeFlagString then pure TypeString
      else if typeFlag = TypeFlagSymbol then pure TypeSymbol
      else if typeFlag = TypeFlagFunction then pure TypeFunction
      else
        match fuel with
        | 0 => outOfFuel
        | fuel + 1 => do
          let con ← ReflectType.ConstructorWith h (Value.TypeOf g h fuel) g.Reflect
            { ValueOf := v }
          let constructor ← ReflectType.GetWith h (Value.TypeOf g h fuel) g.Reflect con
            g.constructorProperty
          let bigInt ← Global.Get h "BigInt"
          if constructor.Equal bigInt then
            pure TypeBigInt
          else
            goPanic (.str ("invalid type: " ++ toString typeFlag))

/-- The last arm of `v.Type()`, on its own: the question to the host. -/
def Value.typeOfHost (g : Globals) (h : Host) (fuel : Nat) (v : Value) : Exec ValueType :=
  match fuel with
  | 0 => outOfFuel
  | fuel + 1 => do
    let con ← ReflectType.ConstructorWith h (Value.TypeOf g h fuel) g.Reflect { ValueOf := v }
    let constructor ← ReflectType.GetWith h (Value.TypeOf g h fuel) g.Reflect con
      g.constructorProperty
    let bigInt ← Global.Get h "BigInt"
    if constructor.Equal bigInt then
      pure TypeBigInt
    else
      goPanic (.str ("invalid type: " ++ toString ((v.Ref >>> 32) &&& 7)))

/-- The source's `ObjectOf(v)`. -/
def ObjectOf (g : Globals) (h : Host) (fuel : Nat) (v : Valuer) : Exec (Object × Bool) :=
  ObjectOfWith (Value.TypeOf g h fuel) v

/-- The source's `FunctionOf(v)`. -/
def FunctionOf (g : Globals) (h : Host) (fuel : Nat) (v : Valuer) : Exec (Function × Bool) :=
  FunctionOfWith (Value.TypeOf g h fuel) v

/-- The source's `v.String()`. -/
def Value.StringOf (g : Globals) (h : Host) (fuel : Nat) (v : Value) : Exec String :=
  v.StringWith h (Value.TypeOf g h fuel)

/-- The source's `e.Error()` of `Error`. -/
def Error.Error (g : Globals) (h : Host) (fuel : Nat) (e : Error) : Exec String :=
  e.ErrorWith h (Value.TypeOf g h fuel)

/-- The source's `o.Call(m, args...)`. -/
def Object.Call (g : Globals) (h : Host) (fuel : Nat) (o : Object) (m : String)
    (args : List Valuer) : Exec (gs.Value × Option error) :=
  o.CallWith h (Value.TypeOf g h fuel) m args

/-- The source's `f.Invoke(args...)`. -/
def Function.Invoke (g : Globals) (h : Host) (fuel : Nat) (f : Function)
    (args : List Valuer) : Exec (gs.Value × Option error) :=
  f.InvokeWith h (Value.TypeOf g h fuel) args

/-- The source's `f.New(args...)`. -/
def Function.New (g : Globals) (h : Host) (fuel : Nat) (f : Function)
    (args : List Valuer) : Exec (gs.Value × Option error) :=
  f.NewWith h (Value.TypeOf g h fuel) args

/-! ## Conversions and the property operations of `Value` (`value.go`) -/

/-- The conversion `float64(n)` of a non-negative integer: the nearest double,
ties to even. -/
def float64.ofNat (n : Nat) : Nat :=
  if n = 0 then 0
  else
    let e := Nat.log2 n
    if e ≤ 52 then (1023 + e) * 2 ^ 52 + (n - 2 ^ e) * 2 ^ (52 - e)
    else
      let s := e - 52
      let q := n / 2 ^ s
      let r := n % 2 ^ s
      let half := 2 ^ (s - 1)
      let q := if r > half ∨ (r = half ∧ q % 2 = 1) then q + 1 else q
      (1023 + e) * 2 ^ 52 + (q - 2 ^ 52)

/-- The conversion `int(f)` of a double: truncation towards zero.  For a NaN,
an infinity or a value outside the 64-bit range Go leaves the result to the
implementation; the smallest `int` is taken here. -/
def float64.toInt (f : Nat) : Int :=
  let e := float64.exponent f
  let m := float64.fraction f
  if e = 2047 then -(2 ^ 63)
  else
    let mag : Nat :=
      if e = 0 then 0
      else if 1075 ≤ e then (2 ^ 52 + m) * 2 ^ (e - 1075)
      else (2 ^ 52 + m) / 2 ^ (1075 - e)
    let r : Int := if f / 2 ^ 63 % 2 = 1 then -(mag : Int) else (mag : Int)
    if r < -(2 ^ 63) ∨ 2 ^ 63 ≤ r then -(2 ^ 63) else r

/-- The dynamic type of the argument of `ValueOf(x any)`.  The integer kinds
and the two float kinds are converted with `float64(x)` before anything else
is done with them; `number` carries the bits of the converted double.  A map
is listed in the order its `range` loop visits it. -/
inductive Any where
  | Value (x : gs.Value)
  | Function (x : gs.Function)
  | nil
  | bool (x : Bool)
  | number (f : Nat)
  | string (x : String)
  | slice (x : List Any)
  | map (x : List (String × Any))
  | Valuer (x : gs.Valuer)
  | other

/-- The source's `v.Set(p, x)`. -/
def Value.SetWith (ty : Value → Exec ValueType) (valueOf : Any → Exec Value)
    (v : Value) (p : String) (x : Any) : Exec Unit := do
  let vType ← ty v
  if !vType.IsObject then
    goPanic (.valueError { Method := "Value.Set", Ty := vType })
  else do
    let xv ← valueOf x
    valueSet v.Ref p xv.Ref

/-- The source's `v.Delete(p)`. -/
def Value.DeleteWith (ty : Value → Exec ValueType) (v : Value) (p : String) : Exec Unit := do
  let vType ← ty v
  if !vType.IsObject then
    goPanic (.valueError { Method := "Value.Delete", Ty := vType })
  else
    valueDelete v.Ref p

/-- The source's `v.Index(i)`. -/
def Value.IndexWith (h : Host) (ty : Value → Exec ValueType) (v : Value) (i : Int) :
    Exec Value := do
  let vType ← ty v
  if !vType.IsObject then
    goPanic (.valueError { Method := "Value.Index", Ty := vType })
  else do
    let r ← valueIndex h v.Ref i
    pure (MakeValue r)

/-- The source's `v.SetIndex(i, x)`. -/
def Value.SetIndexWith (ty : Value → Exec ValueType) (valueOf : Any → Exec Value)
    (v : Value) (i : Int) (x : Any) : Exec Unit := do
  let vType ← ty v
  if !vType.IsObject then
    goPanic (.valueError { Method := "Value.SetIndex", Ty := vType })
  else do
    let xv ← valueOf x
    valueSetIndex v.Ref i xv.Ref

/-- The source's `v.Length()`. -/
def Value.LengthWith (h : Host) (ty : Value → Exec ValueType) (v : Value) : Exec Int := do
  let vType ← ty v
  if !vType.IsObject then
    goPanic (.valueError { Method := "Value.SetIndex", Ty := vType })
  else
    valueLength h v.Ref

/-- The loop `for i, s := range x { a.SetIndex(i, s) }` of `ValueOf`. -/
def setIndexRange (ty : Value → Exec ValueType) (valueOf : Any → Exec Value) (a : Value) :
    Nat → List Any → Exec Unit
  | _, [] => pure ()
  | i, s :: rest => do
    a.SetIndexWith ty valueOf (i : Int) s
    setIndexRange ty valueOf a (i + 1) rest

/-- The loop `for k, v := range x { o.Set(k, v) }` of `ValueOf`. -/
def setRange (ty : Value → Exec ValueType) (valueOf : Any → Exec Value) (o : Value) :
    List (String × Any) → Exec Unit
  | [] => pure ()
  | (k, v) :: rest => do
    o.SetWith ty valueOf k v
    setRange ty valueOf o rest

/-- The source's `ValueOf(x)`.  A slice or a map is filled element by element, each element
through `ValueOf` again; `fuel` bounds that nesting. -/
def ValueOf (g : Globals) (h : Host) : Nat → Any → Exec Value
  | _, .Value x => pure x
  | _, .Function x => pure x.Value
  | _, .nil => pure Null
  | _, .bool x => if x then pure Boolean.True.Value else pure Boolean.False.Value
  | _, .number f => pure (FloatValue f)
  | _, .string x => do
    let r ← stringVal h x
    pure (MakeValue r)
  | 0, .slice _ => outOfFuel
  | fuel + 1, .slice x => do
    let l := FloatValue (float64.ofNat x.length)
    let (a, err) ← g.ArrayConstructor.NewWith h (Value.TypeOf g h (fuel + 1)) [{ ValueOf := l }]
    match err with
    | some e => do
      let msg ← e.ErrorWith h (Value.TypeOf g h (fuel + 1))
      goPanic (.str ("array construction error: " ++ msg))
    | none => do
      setIndexRange (Value.TypeOf g h (fuel + 1)) (ValueOf g h fuel) a 0 x
      pure a
  | 0, .map _ => outOfFuel
  | fuel + 1, .map x => do
    let (o, err) ← g.ObjectConstructor.NewWith h (Value.TypeOf g h (fuel + 1)) []
    match err with
    | some e => do
      let msg ← e.ErrorWith h (Value.TypeOf g h (fuel + 1))
      goPanic (.str ("object construction error: " ++ msg))
    | none => do
      setRange (Value.TypeOf g h (fuel + 1)) (ValueOf g h fuel) o x
      pure o
  | _, .Valuer x => pure x.ValueOf
  | _, .other => goPanic (.str "ValueOf: invalid value")

/-- The source's `v.Set(p, x)`. -/
def Value.Set (g : Globals) (h : Host) (fuel : Nat) (v : Value) (p : String) (x : Any) :
    Exec Unit :=
  v.SetWith (Value.TypeOf g h fuel) (ValueOf g h fuel) p x

/-- The source's `v.Delete(p)`. -/
def Value.Delete (g : Globals) (h : Host) (fuel : Nat) (v : Value) (p : String) : Exec Unit :=
  v.DeleteWith (Value.TypeOf g h fuel) p

/-- The source's `v.Index(i)`. -/
def Value.Index (g : Globals) (h : Host) (fuel : Nat) (v : Value) (i : Int) : Exec Value :=
  v.IndexWith h (Value.TypeOf g h fuel) i

/-- The source's `v.SetIndex(i, x)`. -/
def Value.SetIndex (g : Globals) (h : Host) (fuel : Nat) (v : Value) (i : Int) (x : Any) :
    Exec Unit :=
  v.SetIndexWith (Value.TypeOf g h fuel) (ValueOf g h fuel) i x

/-- The source's `v.Length()`. -/
def Value.Length (g : Globals) (h : Host) (fuel : Nat) (v : Value) : Exec Int :=
  v.LengthWith h (Value.TypeOf g h fuel)

/-- The source's `v.float(method)`: the bits of the double `v` stands for. -/
def Value.float (g : Globals) (h : Host) (fuel : Nat) (v : Value) (method : String) :
    Exec Nat :=
  if !v.IsNumber then do
    let t ← v.TypeOf g h fuel
    goPanic (.valueError { Method := method, Ty := t })
  else if v.Ref = ValueZero.Ref then
    pure float64.zero
  else
    pure v.Ref

/-- The source's `v.Float()`. -/
def Value.Float (g : Globals) (h : Host) (fuel : Nat) (v : Value) : Exec Nat :=
  v.float g h fuel "Value.Float"

/-- The source's `v.Int()`. -/
def Value.Int (g : Globals) (h : Host) (fuel : Nat) (v : Value) : Exec Int := do
  let f ← v.float g h fuel "Value.Int"
  pure (float64.toInt f)

/-- The refs whose type `v.Type()` cannot read off the ref and asks the host
for: not a reserved ref, not a number, and a type flag that is none of object,
string, symbol, function. -/
def Value.hostTyped (v : Value) : Bool :=
  v.Ref != Undefined.Ref && v.Ref != Null.Ref &&
    v.Ref != Boolean.True.Value.Ref && v.Ref != Boolean.False.Value.Ref &&
    !v.IsNumber &&
    (v.Ref >>> 32) &&& 7 != TypeFlagObject && (v.Ref >>> 32) &&& 7 != TypeFlagString &&
    (v.Ref >>> 32) &&& 7 != TypeFlagSymbol && (v.Ref >>> 32) &&& 7 != TypeFlagFunction

/-- The crossings that `Set`, `Delete`, `Index`, `SetIndex` and `Length` make. -/
def Crossing.isReceiverOp : Crossing → Bool
  | .valueSet _ _ _ => true
  | .valueDelete _ _ => true
  | .valueIndex _ _ => true
  | .valueSetIndex _ _ _ => true
  | .valueLength _ => true
  | _ => false

/-- The invoke and construct crossings. -/
def Crossing.isInvoke : Crossing → Bool
  | .valueInvoke _ _ => true
  | .valueNew _ _ => true
  | _ => false

/-- The crossings that `v.Type()`, `v.String()` and the call bridge make. -/
def Crossing.isQuery : Crossing → Bool
  | .valueGet _ _ => true
  | .valueInvoke _ _ => true
  | .valueNew _ _ => true
  | .valuePrepareString _ => true
  | .valueLoadString _ _ => true
  | .finalizeRef _ => true
  | _ => false

/-- A panic that is not a `*ValueError`. -/
def PanicValue.notValueError : PanicValue → Bool
  | .valueError _ => false
  | _ => true

/-- The property `m.Within P Q`: from any point on, `m` only adds crossings that satisfy
`P` to those already made, and when it panics the value satisfies `Q`. -/
def Exec.Within {α : Type} (P : Crossing → Prop) (Q : PanicValue → Prop) (m : Exec α) : Prop :=
  ∀ t, (∃ ext, (m t).2 = t ++ ext ∧ ∀ c ∈ ext, P c) ∧ ∀ p, (m t).1 = .panic p → Q p

/-- How the pair `(res, ok)` that an invoke or construct crossing returned
becomes the result `out` of the call; `t0` is the list of crossings up to and
including that crossing.  On success the decoded result and a nil error.  On
failure the type of the decoded result is asked for: an object or a function
is wrapped in an `Error`, next to the undefined value; any other type is the
panic "non-object error", and when asking for the type panics or does not
end, so does the call.  Asking for the type makes no crossing unless the ref
is `hostTyped`. -/
def PairRule (g : Globals) (h : Host) (fuel : Nat) (res : Ref) (ok : Bool)
    (t0 : List Crossing) (out : Outcome (Value × Option error) × List Crossing) : Prop :=
  (ok = true → out = (.ok (MakeValue res, none), t0)) ∧
    (ok = false →
      (∀ ty t', (MakeValue res).TypeOf g h fuel t0 = (.ok ty, t') →
        (ty.IsObject = true →
          out = (.ok (Undefined,
            some (.Error { Object := { Value := MakeValue res, methods := none } })), t0)) ∧
        (ty.IsObject = false →
          out = (.panic (.str "non-object error"), t') ∧
            ((MakeValue res).hostTyped = false → t' = t0))) ∧
      (∀ p t', (MakeValue res).TypeOf g h fuel t0 = (.panic p, t') → out = (.panic p, t')) ∧
      (∀ t', (MakeValue res).TypeOf g h fuel t0 = (.outOfFuel, t') → out = (.outOfFuel, t')))

/-! ## The callback registry (`function.go`) -/

/-- A Go function handed to `WrapFunction`: `func(this Value, args []Value) any`.
It may cross the boundary and it may panic. -/
abbrev GoFunc : Type := Value → List Value → Exec Any

/-- The package variables `funcs` and `nextFuncID`; `funcsMu` makes every
access to them one step.  `funcs k` is the entry of the map under the key `k`,
and `nextFuncID` is a `uint32`. -/
structure Registry where
  funcs : Nat → Option GoFunc
  nextFuncID : Nat

/-- The registry when the program starts: the two variables are those of
`syscall/js`, which start as an empty map and the counter 1. -/
def Registry.start : Registry := { funcs := fun _ => none, nextFuncID := 1 }

/-- The locked section of `WrapFunction`: `id := nextFuncID; nextFuncID++;
funcs[id] = fn`.  The result is the ID and the registry afterwards. -/
def Registry.assign (s : Registry) (fn : GoFunc) : Nat × Registry :=
  (s.nextFuncID,
    { funcs := fun k => if k = s.nextFuncID then some fn else s.funcs k,
      nextFuncID := (s.nextFuncID + 1) % 2 ^ 32 })

/-- The error that `fmt.Errorf` with `%w` makes: a text and the wrapped error. -/
structure wrapError where
  msg : String
  err : error
deriving DecidableEq, Repr

/-- The source's `WrapFunction(fn)`.  The registry is changed before the host
is asked for the wrapper and stays changed whatever the host answers, so it is
returned next to the computation. -/
def WrapFunction (g : Globals) (h : Host) (fuel : Nat) (s : Registry) (fn : GoFunc) :
    Exec (Function × Option wrapError) × Registry :=
  ((do
    let x ← ValueOf g h fuel (.number (float64.ofNat (s.assign fn).1))
    let (wrap, err) ← g.Go.Call g h fuel "_makeFuncWrapper" [{ ValueOf := x }]
    match err with
    | some e => do
      let msg ← e.ErrorWith h (Value.TypeOf g h fuel)
      pure ({ Value := { Ref := 0, GCPtr := none }, id := 0 },
        some { msg := "make func wrapper: " ++ msg, err := e })
    | none => pure ({ Value := wrap, id := (s.assign fn).1 }, none)),
    (s.assign fn).2)

/-- The source's `f.Release()`: `delete(funcs, f.id)`. -/
def Function.Release (s : Registry) (f : Function) : Registry :=
  { funcs := fun k => if k = f.id then none else s.funcs k, nextFuncID := s.nextFuncID }

/-- The statement `select {}` of the source: the goroutine blocks for ever.
The run does not end, which is the third kind of outcome. -/
def blockForever {α : Type} : Exec α := fun t => (.outOfFuel, t)

/-- The loop `for i := range args { args[i] = argsObj.Index(i) }` of
`handleEvent`, from index `i` on, for `n` more elements. -/
def indexRange (g : Globals) (h : Host) (fuel : Nat) (argsObj : Value) :
    Nat → Nat → Exec (List Value)
  | _, 0 => pure []
  | i, n + 1 => do
    let v ← argsObj.Index g h fuel (i : Int)
    let rest ← indexRange g h fuel argsObj (i + 1) n
    pure (v :: rest)

/-- The source's `handleEvent()`, run on the registry `s`.  What the
registered function does to the registry while it runs is not followed. -/
def handleEvent (g : Globals) (h : Host) (fuel : Nat) (s : Registry) : Exec Unit := do
  let p ← g.Go.Get h "_pendingEvent"
  let (cb, ok) ← ObjectOf g h fuel { ValueOf := p }
  if !ok then
    pure ()
  else do
    g.Go.Value.Set g h fuel "_pendingEvent" (.Valuer { ValueOf := Null })
    let idv ← cb.Get h "id"
    let n ← idv.Int g h fuel
    let id := (n % 2 ^ 32).toNat
    if id = 0 then
      blockForever
    else
      match s.funcs id with
      | none => do
        let _ ← g.Console.Call g h fuel "error" [{ ValueOf := g.releasedErrMsg.Object.Value }]
        pure ()
      | some f => do
        let this ← cb.Get h "this"
        let argsObj ← cb.Get h "args"
        let len ← argsObj.Length g h fuel
        if len < 0 then
          goPanic (.runtimeError "makeslice: len out of range")
        else do
          let args ← indexRange g h fuel argsObj 0 len.toNat
          let result ← f this args
          cb.Value.Set g h fuel "result" result

/-- One call on the registry: `WrapFunction(fn)` or `f.Release()`. -/
inductive RegistryOp where
  | WrapFunction (fn : GoFunc)
  | Release (f : Function)

/-- A run of calls on the registry.  Next to the registry goes the list of the
registrations made and not yet released: `WrapFunction(fn)` adds the ID it
gave out with `fn`, and `f.Release()` takes away every entry with the ID of
`f`. -/
def runOps : List RegistryOp → Registry × List (Nat × GoFunc) → Registry × List (Nat × GoFunc)
  | [], x => x
  | .WrapFunction fn :: ops, (s, live) =>
    runOps ops ((s.assign fn).2, live ++ [((s.assign fn).1, fn)])
  | .Release f :: ops, (s, live) =>
    runOps ops (f.Release s, live.filter fun e => e.1 != f.id)

/-- The number of `WrapFunction` calls in a run. -/
def wrapCount : List RegistryOp → Nat
  | [] => 0
  | .WrapFunction _ :: ops => wrapCount ops + 1
  | .Release _ :: ops => wrapCount ops

/-- What holds of the registry `s` and of the registrations `live` made and
not yet released, after `n` calls of `WrapFunction` from the counter `c0`: the
counter has moved `n` steps, every live ID was given out at one of these
steps, no two live registrations share an ID, and each live ID maps to the
function registered under it. -/
def RegistryInv (c0 n : Nat) (s : Registry) (live : List (Nat × GoFunc)) : Prop :=
  s.nextFuncID = (c0 + n) % 2 ^ 32 ∧
    (∀ e ∈ live, ∃ k, k < n ∧ e.1 = (c0 + k) % 2 ^ 32) ∧
    (live.map Prod.fst).Nodup ∧
    ∀ e ∈ live, s.funcs e.1 = some e.2

/-- The crossings with which `handleEvent` reads the pending event, once the
descriptor `cb` is there: the lookup of `_pendingEvent` on `Go`, the store of
null over it, and the lookup of `id` on the descriptor. -/
def pendingTrace (g : Globals) (cb : Ref) (t : List Crossing) : List Crossing :=
  t ++ [.valueGet g.Go.Value.Ref "_pendingEvent",
    .valueSet g.Go.Value.Ref "_pendingEvent" Null.Ref, .valueGet cb "id"]

/-- The host has staged a call of the function with the ID `id`: after the
crossings `t`, the property `_pendingEvent` of `Go` is the descriptor `cb`, an
object or a function; `Go` is itself an object or a function; and the property
`id` of the descriptor is a number that, cut to an `int` and then to a
`uint32`, is `id`. -/
def Staged (g : Globals) (h : Host) (fuel : Nat) (t : List Crossing) (cb : Value) (id : Nat) :
    Prop :=
  cb = MakeValue (h.valueGet t g.Go.Value.Ref "_pendingEvent") ∧
    (∃ tp, cb.TypeOf g h fuel (t ++ [Crossing.valueGet g.Go.Value.Ref "_pendingEvent"]) =
        (.ok tp, t ++ [Crossing.valueGet g.Go.Value.Ref "_pendingEvent"]) ∧ tp.IsObject = true) ∧
    (∃ tg, g.Go.Value.TypeOf g h fuel (t ++ [Crossing.valueGet g.Go.Value.Ref "_pendingEvent"]) =
        (.ok tg, t ++ [Crossing.valueGet g.Go.Value.Ref "_pendingEvent"]) ∧ tg.IsObject = true) ∧
    (MakeValue (h.valueGet (t ++ [Crossing.valueGet g.Go.Value.Ref "_pendingEvent",
        Crossing.valueSet g.Go.Value.Ref "_pendingEvent" Null.Ref]) cb.Ref "id")).IsNumber = true ∧
    ((float64.toInt
        (if (MakeValue (h.valueGet (t ++ [Crossing.valueGet g.Go.Value.Ref "_pendingEvent",
          Crossing.valueSet g.Go.Value.Ref "_pendingEvent" Null.Ref]) cb.Ref "id")).Ref = ValueZero.Ref
        then float64.zero
        else (MakeValue (h.valueGet (t ++ [Crossing.valueGet g.Go.Value.Ref "_pendingEvent",
          Crossing.valueSet g.Go.Value.Ref "_pendingEvent" Null.Ref]) cb.Ref "id")).Ref)) %
      2 ^ 32).toNat = id

/-! ## A small host

A host with a handful of values, enough to run the paths of the source that
go through it: `Reflect`, `Object`, `BigInt` and the bigint `0n`, a string
with its `indexOf`, a function that throws `{message: "boom"}`, a function
that throws `0n`, and an object whose property `n` is `0n`. -/

namespace Sample

def reflect : Ref := (PredefValue 10 TypeFlagObject).Ref
def objectCtor : Ref := (PredefValue 11 TypeFlagFunction).Ref
def reflectGet : Ref := (PredefValue 12 TypeFlagFunction).Ref
def bigIntCtor : Ref := (PredefValue 13 TypeFlagFunction).Ref
def bigZero : Ref := (PredefValue 14 TypeFlagNone).Ref
def bigZeroObject : Ref := (PredefValue 15 TypeFlagObject).Ref
def constructorStr : Ref := (PredefValue 16 TypeFlagString).Ref
def hello : Ref := (PredefValue 17 TypeFlagString).Ref
def indexOf : Ref := (PredefValue 18 TypeFlagFunction).Ref
def thrower : Ref := (PredefValue 19 TypeFlagFunction).Ref
def errObj : Ref := (PredefValue 20 TypeFlagObject).Ref
def boom : Ref := (PredefValue 21 TypeFlagString).Ref
def bigThrower : Ref := (PredefValue 22 TypeFlagFunction).Ref
def obj : Ref := (PredefValue 23 TypeFlagObject).Ref
def boomBytes : Ref := (PredefValue 24 TypeFlagString).Ref
def console : Ref := (PredefValue 25 TypeFlagObject).Ref
def goObj : Ref := (PredefValue 26 TypeFlagObject).Ref
def arrayCtor : Ref := (PredefValue 27 TypeFlagFunction).Ref
def releasedStr : Ref := (PredefValue 28 TypeFlagString).Ref
def identity : Ref := (PredefValue 29 TypeFlagFunction).Ref

/-- The bits of the double `1`. -/
def one : Nat := 0x3FF0000000000000

def host : Host where
  stringVal := fun _ _ => hello
  valueGet := fun _ v p =>
    if v = reflect ∧ p = "constructor" then objectCtor
    else if v = reflect ∧ p = "get" then reflectGet
    else if v = Global.Value.Ref ∧ p = "BigInt" then bigIntCtor
    else if v = hello ∧ p = "indexOf" then indexOf
    else if v = errObj ∧ p = "message" then boom
    else if v = obj ∧ p = "n" then bigZero
    else if v = obj ∧ p = "id" then identity
    else if v = obj ∧ p = "thrower" then thrower
    else if v = obj ∧ p = "bigThrower" then bigThrower
    else 0
  valueIndex := fun _ _ _ => 0
  valueLength := fun _ _ => 0
  valueInvoke := fun _ v args =>
    if v = objectCtor ∧ args = [bigZero] then (bigZeroObject, true)
    else if v = reflectGet ∧ args = [bigZeroObject, constructorStr] then (bigIntCtor, true)
    else if v = indexOf then (one, true)
    else if v = identity then (args.headD 0, true)
    else if v = thrower then (errObj, false)
    else if v = bigThrower then (bigZero, false)
    else (0, true)
  valueNew := fun _ v _ =>
    if v = thrower then (errObj, false)
    else if v = bigThrower then (bigZero, false)
    else (obj, true)
  valuePrepareString := fun _ v =>
    if v = boom then (boomBytes, 4) else (boomBytes, 0)
  valueLoadString := fun _ v n =>
    if v = boomBytes ∧ n = 4 then "boom" else ""

def globals : Globals where
  Reflect := { Value := MakeValue reflect, methods := none }
  constructorProperty := { Object := { Value := MakeValue constructorStr, methods := none } }
  ObjectConstructor := { Value := MakeValue objectCtor, id := 0 }
  ArrayConstructor := { Value := MakeValue arrayCtor, id := 0 }
  Console := { Value := MakeValue console, methods := none }
  Go := { Value := MakeValue goObj, methods := none }
  releasedErrMsg := { Object := { Value := MakeValue releasedStr, methods := none } }

end Sample

/-! A second host, for the reverse entry: the `Go` object holds a pending
event whose `id` property is the number with the ref `idRef`, `console.error`
is a function, and nothing else is defined. -/

namespace Sample

def pending : Ref := (PredefValue 30 TypeFlagObject).Ref
def consoleError : Ref := (PredefValue 31 TypeFlagFunction).Ref

/-- The bits of the double `5`. -/
def five : Nat := 0x4014000000000000

def eventHost (idRef : Ref) : Host where
  stringVal := fun _ _ => hello
  valueGet := fun _ v p =>
    if v = goObj ∧ p = "_pendingEvent" then pending
    else if v = pending ∧ p = "id" then idRef
    else if v = console ∧ p = "error" then consoleError
    else 0
  valueIndex := fun _ _ _ => 0
  valueLength := fun _ _ => 0
  valueInvoke := fun _ _ _ => (0, true)
  valueNew := fun _ _ _ => (obj, true)
  valuePrepareString := fun _ _ => (boomBytes, 0)
  valueLoadString := fun _ _ _ => ""

/-- A registered function that returns `nil`. -/
def fnNil : GoFunc := fun _ _ => pure Any.nil

/-- A registered function that panics. -/
def fnPanic : GoFunc := fun _ _ => goPanic (.str "called")

/-- A registry that holds `fnPanic` under the ID 7 and `fnNil` under the ID 5. -/
def registry : Registry where
  funcs := fun k => if k = 7 then some fnPanic else if k = 5 then some fnNil else none
  nextFuncID := 8

end Sample

/-! # Theorems -/

theorem and_mask_shift (x n k : Nat) :
    x &&& ((2 ^ n - 1) <<< k) = ((x >>> k) % 2 ^ n) <<< k := by
  apply Nat.eq_of_testBit_eq
  intro i
  simp only [Nat.testBit_and, Nat.testBit_shiftLeft, Nat.testBit_two_pow_sub_one,
    Nat.testBit_mod_two_pow, Nat.testBit_shiftRight]
  by_cases h : k ≤ i
  · have : k + (i - k) = i := by omega
    simp [h, this, Bool.and_comm]
  · simp [h]

theorem and_NaNHead_eq_iff (x : Nat) :
    x &&& NaNHead = NaNHead ↔ x / 2 ^ 19 % 2 ^ 12 = 4095 := by
  have h := and_mask_shift x 12 19
  have e : NaNHead = (2 ^ 12 - 1) <<< 19 := by decide
  rw [e, h, Nat.shiftLeft_eq, Nat.shiftLeft_eq, Nat.shiftRight_eq_div_pow]
  omega

theorem and_seven (x : Nat) : x &&& 7 = x % 8 :=
  Nat.and_pow_two_sub_one_eq_mod x 3

theorem PredefValue_Ref (id typeFlag : Nat) :
    (PredefValue id typeFlag).Ref = (NaNHead + typeFlag % 2 ^ 8) * 2 ^ 32 + id % 2 ^ 32 := by
  have h1 : NaNHead ||| (typeFlag % 2 ^ 8) = NaNHead + typeFlag % 2 ^ 8 := by
    have e : NaNHead = 2 ^ 8 * 0x7FF800 := by decide
    rw [e, ← Nat.mul_add_lt_is_or (Nat.mod_lt _ (by decide))]
  have h2 : ((NaNHead + typeFlag % 2 ^ 8) <<< 32) ||| (id % 2 ^ 32)
      = (NaNHead + typeFlag % 2 ^ 8) * 2 ^ 32 + id % 2 ^ 32 := by
    rw [Nat.shiftLeft_eq, Nat.mul_comm, ← Nat.mul_add_lt_is_or (Nat.mod_lt _ (by decide))]
  simp only [PredefValue, h1, h2]
  have : typeFlag % 2 ^ 8 < 2 ^ 8 := Nat.mod_lt _ (by decide)
  have : id % 2 ^ 32 < 2 ^ 32 := Nat.mod_lt _ (by decide)
  apply Nat.mod_eq_of_lt
  simp only [NaNHead]
  omega

theorem isNaN_eq_false_iff (f : Nat) :
    float64.isNaN f = false ↔ (f / 2 ^ 52 % 2 ^ 11 ≠ 2047 ∨ f % 2 ^ 52 = 0) := by
  simp only [float64.isNaN, float64.exponent, float64.fraction, Bool.and_eq_false_iff,
    beq_eq_false_iff_ne, bne_eq_false_iff_eq, ne_eq]

theorem isNaN_eq_true_iff (f : Nat) :
    float64.isNaN f = true ↔ (f / 2 ^ 52 % 2 ^ 11 = 2047 ∧ f % 2 ^ 52 ≠ 0) := by
  simp only [float64.isNaN, float64.exponent, float64.fraction, Bool.and_eq_true,
    beq_iff_eq, bne_iff_ne, ne_eq]

theorem isZero_eq_true_iff (f : Nat) : float64.isZero f = true ↔ f % 2 ^ 63 = 0 := by
  simp only [float64.isZero, beq_iff_eq]

theorem eq_zero_eq_isZero (f : Nat) : float64.eq f float64.zero = float64.isZero f := by
  rw [Bool.eq_iff_iff, isZero_eq_true_iff]
  simp only [float64.eq, Bool.and_eq_true, Bool.not_eq_true', Bool.or_eq_true, beq_iff_eq,
    isNaN_eq_false_iff, isZero_eq_true_iff, float64.zero]
  omega

theorem eq_self_eq_not_isNaN (f : Nat) : float64.eq f f = !float64.isNaN f := by
  simp [float64.eq]

theorem FloatValue_eq (f : Nat) :
    FloatValue f =
      if float64.isZero f then ValueZero
      else if float64.isNaN f then ValueNaN
      else { Ref := f, GCPtr := none } := by
  simp only [FloatValue, eq_zero_eq_isZero, eq_self_eq_not_isNaN, Bool.not_not]

theorem ValueZero_Ref : ValueZero.Ref = 0x7FF8000000000001 := by decide
theorem ValueNaN_Ref : ValueNaN.Ref = 0x7FF8000000000000 := by decide
theorem Null_Ref : Null.Ref = 0x7FF8000000000002 := by decide
theorem True_Ref : Boolean.True.Value.Ref = 0x7FF8000000000003 := by decide
theorem False_Ref : Boolean.False.Value.Ref = 0x7FF8000000000004 := by decide
theorem Undefined_Ref : Undefined.Ref = 0 := rfl

theorem IsNumber_iff (v : Value) :
    v.IsNumber = true ↔
      v.Ref = 0x7FF8000000000001 ∨ v.Ref = 0x7FF8000000000000 ∨
        (v.Ref ≠ 0 ∧ v.Ref / 2 ^ 32 / 2 ^ 19 % 2 ^ 12 ≠ 4095) := by
  simp only [Value.IsNumber, Bool.or_eq_true, Bool.and_eq_true, beq_iff_eq, bne_iff_ne, ne_eq,
    and_NaNHead_eq_iff, ValueZero_Ref, ValueNaN_Ref, Undefined_Ref, Nat.shiftRight_eq_div_pow,
    or_assoc]

/-! ## Running a computation -/

theorem Exec.pure_run {α : Type} (a : α) (t : List Crossing) :
    (pure a : Exec α) t = (.ok a, t) := rfl

theorem Exec.bind_run {α β : Type} (m : Exec α) (f : α → Exec β) (t : List Crossing) :
    (m >>= f) t = Exec.bind m f t := rfl

theorem Exec.bind_ok {α β : Type} {m : Exec α} {f : α → Exec β} {t t' : List Crossing} {a : α}
    (hm : m t = (.ok a, t')) : (m >>= f) t = f a t' := by
  simp only [Exec.bind_run, Exec.bind, hm]

theorem Exec.bind_panic {α β : Type} {m : Exec α} {f : α → Exec β} {t t' : List Crossing}
    {p : PanicValue} (hm : m t = (.panic p, t')) : (m >>= f) t = (.panic p, t') := by
  simp only [Exec.bind_run, Exec.bind, hm]

theorem Exec.bind_outOfFuel {α β : Type} {m : Exec α} {f : α → Exec β} {t t' : List Crossing}
    (hm : m t = (.outOfFuel, t')) : (m >>= f) t = (.outOfFuel, t') := by
  simp only [Exec.bind_run, Exec.bind, hm]

/-! ## The number encoding -/

/-- The call `v.Type()`, arm by arm; the last arm is the question to the host. -/
theorem TypeOf_eq (g : Globals) (h : Host) (fuel : Nat) (v : Value) :
    v.TypeOf g h fuel =
      if v.Ref = Undefined.Ref then pure TypeUndefined
      else if v.Ref = Null.Ref then pure TypeNull
      else if v.Ref = Boolean.True.Value.Ref ∨ v.Ref = Boolean.False.Value.Ref then
        pure TypeBoolean
      else if v.IsNumber then pure TypeNumber
      else if (v.Ref >>> 32) &&& 7 = TypeFlagObject then pure TypeObject
      else if (v.Ref >>> 32) &&& 7 = TypeFlagString then pure TypeString
      else if (v.Ref >>> 32) &&& 7 = TypeFlagSymbol then pure TypeSymbol
      else if (v.Ref >>> 32) &&& 7 = TypeFlagFunction then pure TypeFunction
      else v.typeOfHost g h fuel := by
  cases fuel <;> rfl

/-- A ref that `IsNumber` accepts is none of undefined, null, true, false. -/
theorem IsNumber_not_reserved (v : Value) (h : v.IsNumber = true) :
    v.Ref ≠ Undefined.Ref ∧ v.Ref ≠ Null.Ref ∧ v.Ref ≠ Boolean.True.Value.Ref ∧
      v.Ref ≠ Boolean.False.Value.Ref := by
  rw [IsNumber_iff] at h
  rw [Undefined_Ref, Null_Ref, True_Ref, False_Ref]
  simp only [Ref, Nat.reducePow] at *
  omega

/-- The call `v.Type()` on a number: decided on the ref, with no crossing. -/
theorem TypeOf_of_IsNumber (g : Globals) (h : Host) (fuel : Nat) (v : Value)
    (t : List Crossing) (hn : v.IsNumber = true) :
    v.TypeOf g h fuel t = (.ok TypeNumber, t) := by
  obtain ⟨h0, h1, h2, h3⟩ := IsNumber_not_reserved v hn
  rw [TypeOf_eq, if_neg h0, if_neg h1, if_neg (by simp [h2, h3]), if_pos hn]
  rfl

/-- The call `v.float(method)` on a number. -/
theorem float_of_IsNumber (g : Globals) (h : Host) (fuel : Nat) (v : Value) (method : String)
    (t : List Crossing) (hn : v.IsNumber = true) :
    v.float g h fuel method t =
      (.ok (if v.Ref = ValueZero.Ref then float64.zero else v.Ref), t) := by
  unfold Value.float
  simp only [hn, Bool.not_true, Bool.false_eq_true, if_false]
  split <;> rfl

/-- The ref of a double that is neither a zero nor a NaN is a number. -/
theorem IsNumber_raw (f : Nat) (hz : float64.isZero f = false) (hn : float64.isNaN f = false) :
    Value.IsNumber { Ref := f, GCPtr := none } = true := by
  rw [IsNumber_iff]
  rw [isNaN_eq_false_iff] at hn
  have hz' : ¬ f % 2 ^ 63 = 0 := by
    intro h
    rw [← isZero_eq_true_iff] at h
    rw [h] at hz
    exact Bool.noConfusion hz
  right; right
  simp only [Ref, Nat.reducePow] at *
  omega

theorem IsNumber_FloatValue (f : Nat) : (FloatValue f).IsNumber = true := by
  rw [FloatValue_eq]
  split
  · decide
  · split
    · decide
    · exact IsNumber_raw f (by simpa using ‹¬ float64.isZero f = true›)
        (by simpa using ‹¬ float64.isNaN f = true›)

/-- C1, as amended: for every double `f` that is not a NaN, `FloatValue f` is
a number ref; when `f` is neither `+0` nor `-0`, `Float` gives back the very
bits of `f`, with no crossing; when `f` is a zero (`-0` included, since the
source tests `f == 0`), `FloatValue f` is the reserved zero ref and `Float`
gives back `+0`. -/
theorem FloatValue_Float_roundtrip (g : Globals) (h : Host) (fuel : Nat) (t : List Crossing)
    (f : Nat) (hn : float64.isNaN f = false) :
    (FloatValue f).IsNumber = true ∧
      (float64.isZero f = false → (FloatValue f).Float g h fuel t = (.ok f, t)) ∧
      (float64.isZero f = true →
        FloatValue f = ValueZero ∧ (FloatValue f).Float g h fuel t = (.ok float64.zero, t)) := by
  refine ⟨IsNumber_FloatValue f, ?_, ?_⟩
  · intro hz
    have hv : FloatValue f = { Ref := f, GCPtr := none } := by
      rw [FloatValue_eq]; simp [hz, hn]
    rw [Value.Float, float_of_IsNumber _ _ _ _ _ _ (IsNumber_FloatValue f), hv]
    have hne : f ≠ ValueZero.Ref := by
      intro he
      rw [ValueZero_Ref] at he
      rw [he] at hn
      exact absurd hn (by decide)
    simp only [hne, if_false]
  · intro hz
    have hv : FloatValue f = ValueZero := by
      rw [FloatValue_eq]; simp [hz]
    refine ⟨hv, ?_⟩
    rw [Value.Float, float_of_IsNumber _ _ _ _ _ _ (IsNumber_FloatValue f), hv]
    simp

/-- C1, witness: the double `1`, and the double `-0`. -/
theorem FloatValue_Float_roundtrip_witness :
    float64.isNaN Sample.one = false ∧
      ((FloatValue Sample.one).IsNumber = true ∧
        (float64.isZero Sample.one = false →
          (FloatValue Sample.one).Float Sample.globals Sample.host 0 [] = (.ok Sample.one, [])) ∧
        (float64.isZero Sample.one = true →
          FloatValue Sample.one = ValueZero ∧
            (FloatValue Sample.one).Float Sample.globals Sample.host 0 [] =
              (.ok float64.zero, []))) :=
  ⟨by decide, FloatValue_Float_roundtrip Sample.globals Sample.host 0 [] Sample.one (by decide)⟩

/-- C1, as stated, fails at `-0`: it is not a NaN and its bits are not those of
the canonical zero, yet `Float` on `FloatValue(-0)` returns the bits of `+0`. -/
theorem FloatValue_negZero_not_bit_exact :
    float64.negZero < 2 ^ 64 ∧ float64.isNaN float64.negZero = false ∧
      float64.negZero ≠ float64.zero ∧
      (FloatValue float64.negZero).IsNumber = true ∧
      (FloatValue float64.negZero).Float Sample.globals Sample.host 0 [] =
        (.ok float64.zero, []) := by
  refine ⟨by decide, by decide, by decide, by decide, ?_⟩
  rfl

/-- Every ref made by `PredefValue` has the bit pattern of a NaN. -/
theorem isNaN_PredefValue (id typeFlag : Nat) :
    float64.isNaN (PredefValue id typeFlag).Ref = true := by
  rw [isNaN_eq_true_iff, PredefValue_Ref]
  have h1 : typeFlag % 2 ^ 8 < 2 ^ 8 := Nat.mod_lt _ (by decide)
  have h2 : id % 2 ^ 32 < 2 ^ 32 := Nat.mod_lt _ (by decide)
  simp only [NaNHead, Ref, Nat.reducePow] at *
  omega

/-- The ref of `FloatValue f` is the reserved zero, the reserved NaN, or a bit
pattern that is not a NaN and not `0`. -/
theorem FloatValue_Ref_cases (f : Nat) :
    (FloatValue f).Ref = ValueZero.Ref ∨ (FloatValue f).Ref = ValueNaN.Ref ∨
      (float64.isNaN (FloatValue f).Ref = false ∧ (FloatValue f).Ref ≠ 0) := by
  rw [FloatValue_eq]
  split
  · exact Or.inl rfl
  · split
    · exact Or.inr (Or.inl rfl)
    · rename_i hz hn
      refine Or.inr (Or.inr ⟨by simpa using hn, ?_⟩)
      intro h0
      apply hz
      show float64.isZero f = true
      rw [show f = 0 from h0]
      decide

/-- C2: `FloatValue(0.0)` is the reserved zero ref and `FloatValue` of any NaN
is the reserved NaN ref; both have the NaN head and the type flag none, with
index 1 and 0; `IsNumber` holds of both; `Float` returns `0.0` on the first and
a NaN on the second, with no crossing. -/
theorem FloatValue_reserved (g : Globals) (h : Host) (fuel : Nat) (t : List Crossing) :
    FloatValue float64.zero = ValueZero ∧
      (∀ f, float64.isNaN f = true → FloatValue f = ValueNaN) ∧
      ValueZero = PredefValue 1 TypeFlagNone ∧ ValueNaN = PredefValue 0 TypeFlagNone ∧
      (ValueZero.Ref >>> 32 = NaNHead ∧ (ValueZero.Ref >>> 32) &&& 7 = TypeFlagNone ∧
        ValueZero.Ref % 2 ^ 32 = 1) ∧
      (ValueNaN.Ref >>> 32 = NaNHead ∧ (ValueNaN.Ref >>> 32) &&& 7 = TypeFlagNone ∧
        ValueNaN.Ref % 2 ^ 32 = 0) ∧
      ValueZero.IsNumber = true ∧ ValueNaN.IsNumber = true ∧
      ValueZero.Float g h fuel t = (.ok float64.zero, t) ∧
      (∃ n, ValueNaN.Float g h fuel t = (.ok n, t) ∧ float64.isNaN n = true) := by
  refine ⟨by decide, ?_, rfl, rfl, by decide, by decide, by decide, by decide, ?_, ?_⟩
  · intro f hf
    have hz : float64.isZero f = false := by
      rw [isNaN_eq_true_iff] at hf
      rw [Bool.eq_false_iff, ne_eq, isZero_eq_true_iff]
      simp only [Nat.reducePow] at *
      omega
    rw [FloatValue_eq]
    simp [hz, hf]
  · rw [Value.Float, float_of_IsNumber _ _ _ _ _ _ (by decide)]
    simp
  · refine ⟨ValueNaN.Ref, ?_, by decide⟩
    rw [Value.Float, float_of_IsNumber _ _ _ _ _ _ (by decide)]
    simp only [show ValueNaN.Ref ≠ ValueZero.Ref by decide, if_false]

/-- C3: for every double `f` and every index `id`, the ref of `FloatValue f` is
none of undefined, null, true, false, and none of the tagged refs
`PredefValue(id, flag)` with flag object, string, symbol or function; and its
type is number. -/
theorem FloatValue_no_collision (g : Globals) (h : Host) (fuel : Nat) (t : List Crossing)
    (f id : Nat) :
    (FloatValue f).Ref ≠ Undefined.Ref ∧ (FloatValue f).Ref ≠ Null.Ref ∧
      (FloatValue f).Ref ≠ Boolean.True.Value.Ref ∧
      (FloatValue f).Ref ≠ Boolean.False.Value.Ref ∧
      (FloatValue f).Ref ≠ (PredefValue id TypeFlagObject).Ref ∧
      (FloatValue f).Ref ≠ (PredefValue id TypeFlagString).Ref ∧
      (FloatValue f).Ref ≠ (PredefValue id TypeFlagSymbol).Ref ∧
      (FloatValue f).Ref ≠ (PredefValue id TypeFlagFunction).Ref ∧
      (FloatValue f).TypeOf g h fuel t = (.ok TypeNumber, t) := by
  obtain ⟨h0, h1, h2, h3⟩ := IsNumber_not_reserved _ (IsNumber_FloatValue f)
  refine ⟨h0, h1, h2, h3, ?_, ?_, ?_, ?_, TypeOf_of_IsNumber g h fuel _ t (IsNumber_FloatValue f)⟩
  all_goals
    intro he
    rcases FloatValue_Ref_cases f with hc | hc | ⟨hc, _⟩
    · rw [hc, ValueZero_Ref, PredefValue_Ref] at he
      have h2 : id % 2 ^ 32 < 2 ^ 32 := Nat.mod_lt _ (by decide)
      simp only [NaNHead, TypeFlagObject, TypeFlagString, TypeFlagSymbol, TypeFlagFunction,
        Ref, Nat.reducePow, Nat.reduceMod] at *
      omega
    · rw [hc, ValueNaN_Ref, PredefValue_Ref] at he
      have h2 : id % 2 ^ 32 < 2 ^ 32 := Nat.mod_lt _ (by decide)
      simp only [NaNHead, TypeFlagObject, TypeFlagString, TypeFlagSymbol, TypeFlagFunction,
        Ref, Nat.reducePow, Nat.reduceMod] at *
      omega
    · rw [he, isNaN_PredefValue] at hc
      exact Bool.noConfusion hc

theorem isNaN_false_of_isZero (f : Nat) (hz : float64.isZero f = true) :
    float64.isNaN f = false := by
  rw [isZero_eq_true_iff] at hz
  rw [isNaN_eq_false_iff]
  simp only [Nat.reducePow] at *
  omega

theorem ne_reserved_of_not_isNaN (f : Nat) (hn : float64.isNaN f = false) :
    f ≠ ValueZero.Ref ∧ f ≠ ValueNaN.Ref := by
  constructor <;> intro he <;> rw [he] at hn <;> exact absurd hn (by decide)

theorem Equal_iff (x y : Value) :
    x.Equal y = true ↔ x.Ref = y.Ref ∧ x.Ref ≠ ValueNaN.Ref := by
  simp only [Value.Equal, Bool.and_eq_true, beq_iff_eq, bne_iff_ne, ne_eq]

theorem float64_eq_iff (a b : Nat) :
    float64.eq a b = true ↔
      float64.isNaN a = false ∧ float64.isNaN b = false ∧
        (a = b ∨ (float64.isZero a = true ∧ float64.isZero b = true)) := by
  simp only [float64.eq, Bool.and_eq_true, Bool.or_eq_true, Bool.not_eq_true', beq_iff_eq,
    and_assoc]

/-- The three shapes of `FloatValue f`. -/
theorem FloatValue_cases (f : Nat) :
    (float64.isZero f = true ∧ float64.isNaN f = false ∧ FloatValue f = ValueZero) ∨
      (float64.isZero f = false ∧ float64.isNaN f = true ∧ FloatValue f = ValueNaN) ∨
      (float64.isZero f = false ∧ float64.isNaN f = false ∧
        FloatValue f = { Ref := f, GCPtr := none }) := by
  by_cases hz : float64.isZero f = true
  · exact Or.inl ⟨hz, isNaN_false_of_isZero f hz, by rw [FloatValue_eq, if_pos hz]⟩
  · by_cases hn : float64.isNaN f = true
    · exact Or.inr (Or.inl ⟨by simpa using hz, hn, by rw [FloatValue_eq, if_neg hz, if_pos hn]⟩)
    · exact Or.inr (Or.inr ⟨by simpa using hz, by simpa using hn,
        by rw [FloatValue_eq, if_neg hz, if_neg hn]⟩)

/-- C5: `Equal` on two encoded doubles is the IEEE-754 comparison of the
doubles (a NaN equals nothing, itself included; `+0` equals `-0`); and
`v.Equal(v)` is false for the reserved NaN ref and true for every other ref. -/
theorem Equal_agrees_with_ieee (a b : Nat) (v : Value) :
    (FloatValue a).Equal (FloatValue b) = float64.eq a b ∧
      (v.Equal v = true ↔ v.Ref ≠ ValueNaN.Ref) ∧
      (v.Equal v = false ↔ v.Ref = ValueNaN.Ref) := by
  refine ⟨?_, ?_, ?_⟩
  · rw [Bool.eq_iff_iff, Equal_iff, float64_eq_iff]
    have hZN : ValueZero.Ref ≠ ValueNaN.Ref := by decide
    rcases FloatValue_cases a with ⟨hza, hna, ea⟩ | ⟨hza, hna, ea⟩ | ⟨hza, hna, ea⟩ <;>
      rcases FloatValue_cases b with ⟨hzb, hnb, eb⟩ | ⟨hzb, hnb, eb⟩ | ⟨hzb, hnb, eb⟩ <;>
      rw [ea, eb]
    · exact ⟨fun _ => ⟨hna, hnb, Or.inr ⟨hza, hzb⟩⟩, fun _ => ⟨rfl, hZN⟩⟩
    · refine ⟨fun hh => absurd hh.1 hZN, fun hh => ?_⟩
      rw [hnb] at hh
      exact Bool.noConfusion hh.2.1
    · have hb := ne_reserved_of_not_isNaN b hnb
      refine ⟨fun hh => absurd hh.1.symm hb.1, fun hh => ?_⟩
      rcases hh.2.2 with e | ⟨_, e⟩
      · rw [e, hzb] at hza
        exact Bool.noConfusion hza
      · rw [hzb] at e
        exact Bool.noConfusion e
    · refine ⟨fun hh => absurd rfl hh.2, fun hh => ?_⟩
      rw [hna] at hh
      exact Bool.noConfusion hh.1
    · refine ⟨fun hh => absurd rfl hh.2, fun hh => ?_⟩
      rw [hna] at hh
      exact Bool.noConfusion hh.1
    · refine ⟨fun hh => absurd rfl hh.2, fun hh => ?_⟩
      rw [hna] at hh
      exact Bool.noConfusion hh.1
    · have ha := ne_reserved_of_not_isNaN a hna
      refine ⟨fun hh => absurd hh.1 ha.1, fun hh => ?_⟩
      rcases hh.2.2 with e | ⟨e, _⟩
      · rw [← e, hza] at hzb
        exact Bool.noConfusion hzb
      · rw [hza] at e
        exact Bool.noConfusion e
    · have ha := ne_reserved_of_not_isNaN a hna
      refine ⟨fun hh => absurd hh.1 ha.2, fun hh => ?_⟩
      rw [hnb] at hh
      exact Bool.noConfusion hh.2.1
    · have ha := ne_reserved_of_not_isNaN a hna
      exact ⟨fun hh => ⟨hna, hnb, Or.inl hh.1⟩, fun hh => ⟨by
        rcases hh.2.2 with e | ⟨e, _⟩
        · exact e
        · rw [hza] at e
          exact Bool.noConfusion e, ha.2⟩⟩
  · simp [Value.Equal]
  · simp [Value.Equal]

/-! ## What a computation may cross and how it may panic -/

section Within

variable {P : Crossing → Prop} {Q : PanicValue → Prop}

theorem Exec.Within.pure {α : Type} (a : α) : (Pure.pure a : Exec α).Within P Q := by
  intro t
  refine ⟨⟨[], ?_, by simp⟩, fun p hp => ?_⟩
  · show t = t ++ []
    simp
  · exact Outcome.noConfusion (show Outcome.ok a = Outcome.panic p from hp)

theorem Exec.Within.goPanic {α : Type} (p : PanicValue) (hp : Q p) :
    (gs.goPanic p : Exec α).Within P Q := by
  intro t
  refine ⟨⟨[], ?_, by simp⟩, fun p' hp' => ?_⟩
  · show t = t ++ []
    simp
  · have e : (Outcome.panic p : Outcome α) = Outcome.panic p' := hp'
    injection e with e
    exact e ▸ hp

theorem Exec.Within.outOfFuel {α : Type} : (gs.outOfFuel : Exec α).Within P Q := by
  intro t
  refine ⟨⟨[], ?_, by simp⟩, fun p hp => ?_⟩
  · show t = t ++ []
    simp
  · exact Outcome.noConfusion (show (Outcome.outOfFuel : Outcome α) = Outcome.panic p from hp)

theorem Exec.Within.bind {α β : Type} {m : Exec α} {f : α → Exec β}
    (hm : m.Within P Q) (hf : ∀ a, (f a).Within P Q) : (m >>= f).Within P Q := by
  intro t
  obtain ⟨⟨ext, he, hP⟩, hq⟩ := hm t
  rcases hmt : m t with ⟨o, t'⟩
  rw [hmt] at he hq
  simp only at he hq
  subst he
  cases o with
  | ok a =>
    rw [Exec.bind_ok hmt]
    obtain ⟨⟨ext', he', hP'⟩, hq'⟩ := hf a (t ++ ext)
    refine ⟨⟨ext ++ ext', ?_, ?_⟩, hq'⟩
    · rw [he', List.append_assoc]
    · intro c hc
      rcases List.mem_append.mp hc with h | h
      · exact hP c h
      · exact hP' c h
  | panic p =>
    rw [Exec.bind_panic hmt]
    refine ⟨⟨ext, rfl, hP⟩, fun p' hp' => ?_⟩
    have e : (Outcome.panic p : Outcome β) = Outcome.panic p' := hp'
    injection e with e
    exact hq p' (by rw [e])
  | outOfFuel =>
    rw [Exec.bind_outOfFuel hmt]
    exact ⟨⟨ext, rfl, hP⟩, fun p hp => Outcome.noConfusion hp⟩

theorem Exec.Within.cross {α : Type} (c : Crossing) (a : List Crossing → α) (hc : P c) :
    Exec.Within P Q (fun t => (Outcome.ok (a t), t ++ [c])) := by
  intro t
  refine ⟨⟨[c], rfl, ?_⟩, fun p hp => Outcome.noConfusion hp⟩
  intro c' hc'
  rw [List.mem_singleton] at hc'
  exact hc' ▸ hc

/-- Weakening of both predicates. -/
theorem Exec.Within.mono {α : Type} {P' : Crossing → Prop} {Q' : PanicValue → Prop}
    {m : Exec α} (hm : m.Within P Q) (hP : ∀ c, P c → P' c) (hQ : ∀ p, Q p → Q' p) :
    m.Within P' Q' := by
  intro t
  obtain ⟨⟨ext, he, hP0⟩, hq⟩ := hm t
  exact ⟨⟨ext, he, fun c hc => hP c (hP0 c hc)⟩, fun p hp => hQ p (hq p hp)⟩

end Within

/-- The crossings and panics of the type query and of what it calls. -/
abbrev QueryOnly {α : Type} (m : Exec α) : Prop :=
  m.Within (fun c => c.isQuery = true) (fun p => p.notValueError = true)

theorem Object.Get_queryOnly (h : Host) (o : Object) (p : String) :
    QueryOnly (o.Get h p) := by
  unfold Object.Get
  exact Exec.Within.bind (Exec.Within.cross _ _ rfl) (fun _ => Exec.Within.pure _)

theorem jsString_queryOnly (h : Host) (v : Value) : QueryOnly (jsString h v) := by
  unfold jsString
  refine Exec.Within.bind (Exec.Within.cross _ _ rfl) (fun x => ?_)
  obtain ⟨str, length⟩ := x
  simp only
  split
  · exact Exec.Within.goPanic _ rfl
  · exact Exec.Within.bind (Exec.Within.cross _ _ rfl)
      (fun _ => Exec.Within.bind (Exec.Within.cross _ _ rfl) (fun _ => Exec.Within.pure _))

theorem ObjectOfWith_queryOnly {ty : Value → Exec ValueType} (hty : ∀ v, QueryOnly (ty v))
    (v : Valuer) : QueryOnly (ObjectOfWith ty v) := by
  unfold ObjectOfWith
  refine Exec.Within.bind (hty _) (fun t => ?_)
  split <;> exact Exec.Within.pure _

theorem FunctionOfWith_queryOnly {ty : Value → Exec ValueType} (hty : ∀ v, QueryOnly (ty v))
    (v : Valuer) : QueryOnly (FunctionOfWith ty v) := by
  unfold FunctionOfWith
  refine Exec.Within.bind (hty _) (fun t => ?_)
  split <;> exact Exec.Within.pure _

theorem StringWith_queryOnly (h : Host) {ty : Value → Exec ValueType}
    (hty : ∀ v, QueryOnly (ty v)) (v : Value) : QueryOnly (v.StringWith h ty) := by
  unfold Value.StringWith
  refine Exec.Within.bind (hty _) (fun t => ?_)
  cases t
  case TypeBigInt => exact Exec.Within.goPanic _ rfl
  case TypeString => exact jsString_queryOnly h v
  case TypeBoolean =>
    exact Exec.Within.bind (jsString_queryOnly h v) (fun _ => Exec.Within.pure _)
  case TypeNumber =>
    exact Exec.Within.bind (jsString_queryOnly h v) (fun _ => Exec.Within.pure _)
  all_goals exact Exec.Within.pure _

theorem ErrorWith_queryOnly (h : Host) {ty : Value → Exec ValueType}
    (hty : ∀ v, QueryOnly (ty v)) (e : error) : QueryOnly (e.ErrorWith h ty) := by
  cases e with
  | MethodError e => exact Exec.Within.pure _
  | Error e =>
    show QueryOnly (e.ErrorWith h ty)
    unfold Error.ErrorWith
    exact Exec.Within.bind (Object.Get_queryOnly h _ _)
      (fun _ => Exec.Within.bind (StringWith_queryOnly h hty _) (fun _ => Exec.Within.pure _))

theorem resultOf_queryOnly {ty : Value → Exec ValueType} (hty : ∀ v, QueryOnly (ty v))
    (res : Ref) (ok : Bool) : QueryOnly (resultOf ty res ok) := by
  unfold resultOf
  simp only
  split
  · refine Exec.Within.bind (ObjectOfWith_queryOnly hty _) (fun x => ?_)
    obtain ⟨err, ok'⟩ := x
    simp only
    split
    · exact Exec.Within.goPanic _ rfl
    · exact Exec.Within.pure _
  · exact Exec.Within.pure _

theorem CallWith_queryOnly (h : Host) {ty : Value → Exec ValueType}
    (hty : ∀ v, QueryOnly (ty v)) (o : Object) (m : String) (args : List Valuer) :
    QueryOnly (o.CallWith h ty m args) := by
  unfold Object.CallWith
  simp only
  split
  · refine Exec.Within.bind (Exec.Within.cross _ _ rfl) (fun x => ?_)
    exact resultOf_queryOnly hty _ _
  · refine Exec.Within.bind (Object.Get_queryOnly h _ _) (fun p => ?_)
    refine Exec.Within.bind (FunctionOfWith_queryOnly hty _) (fun x => ?_)
    obtain ⟨fn, ok⟩ := x
    simp only
    split
    · exact Exec.Within.pure _
    · refine Exec.Within.bind (Exec.Within.cross _ _ rfl) (fun x => ?_)
      exact resultOf_queryOnly hty _ _

theorem ConstructorWith_queryOnly (h : Host) {ty : Value → Exec ValueType}
    (hty : ∀ v, QueryOnly (ty v)) (r : Object) (v : Valuer) :
    QueryOnly (ReflectType.ConstructorWith h ty r v) := by
  unfold ReflectType.ConstructorWith
  refine Exec.Within.bind (CallWith_queryOnly h hty _ _ _) (fun x => ?_)
  obtain ⟨con, err⟩ := x
  cases err with
  | some e =>
    exact Exec.Within.bind (ErrorWith_queryOnly h hty e) (fun _ => Exec.Within.goPanic _ rfl)
  | none =>
    refine Exec.Within.bind (ObjectOfWith_queryOnly hty _) (fun x => ?_)
    obtain ⟨o, ok⟩ := x
    simp only
    split
    · exact Exec.Within.goPanic _ rfl
    · exact Exec.Within.pure _

theorem GetWith_queryOnly (h : Host) {ty : Value → Exec ValueType}
    (hty : ∀ v, QueryOnly (ty v)) (r o : Object) (p : JSString) :
    QueryOnly (ReflectType.GetWith h ty r o p) := by
  unfold ReflectType.GetWith
  refine Exec.Within.bind (CallWith_queryOnly h hty _ _ _) (fun x => ?_)
  obtain ⟨v, err⟩ := x
  cases err with
  | some e =>
    exact Exec.Within.bind (ErrorWith_queryOnly h hty e) (fun _ => Exec.Within.goPanic _ rfl)
  | none => exact Exec.Within.pure _

/-- The call `v.Type()` only makes lookups, invokes and string reads, and never panics
with a `*ValueError`. -/
theorem TypeOf_queryOnly (g : Globals) (h : Host) (fuel : Nat) :
    ∀ v, QueryOnly (Value.TypeOf g h fuel v) := by
  induction fuel with
  | zero =>
    intro v
    rw [TypeOf_eq]
    repeat' split
    all_goals first
      | exact Exec.Within.pure _
      | exact Exec.Within.outOfFuel
  | succ n ih =>
    intro v
    rw [TypeOf_eq]
    repeat' split
    all_goals first
      | exact Exec.Within.pure _
      | skip
    unfold Value.typeOfHost
    refine Exec.Within.bind (ConstructorWith_queryOnly h ih _ _) (fun con => ?_)
    refine Exec.Within.bind (GetWith_queryOnly h ih _ _ _) (fun c => ?_)
    refine Exec.Within.bind (Object.Get_queryOnly h _ _) (fun b => ?_)
    split
    · exact Exec.Within.pure _
    · exact Exec.Within.goPanic _ rfl

/-! ## `v.Type()` -/

theorem Exec.bind_eq_ok {α β : Type} {m : Exec α} {f : α → Exec β} {t t' : List Crossing}
    {b : β} (hb : (m >>= f) t = (.ok b, t')) :
    ∃ a t1, m t = (.ok a, t1) ∧ f a t1 = (.ok b, t') := by
  rcases hmt : m t with ⟨o, t1⟩
  cases o with
  | ok a => exact ⟨a, t1, rfl, by rw [Exec.bind_ok hmt] at hb; exact hb⟩
  | panic p =>
    rw [Exec.bind_panic hmt] at hb
    exact Outcome.noConfusion (congrArg Prod.fst hb)
  | outOfFuel =>
    rw [Exec.bind_outOfFuel hmt] at hb
    exact Outcome.noConfusion (congrArg Prod.fst hb)

/-- The arithmetic reading of `hostTyped`. -/
theorem hostTyped_iff (v : Value) :
    v.hostTyped = true ↔
      v.Ref ≠ Undefined.Ref ∧ v.Ref ≠ Null.Ref ∧ v.Ref ≠ Boolean.True.Value.Ref ∧
        v.Ref ≠ Boolean.False.Value.Ref ∧ v.IsNumber = false ∧
        (v.Ref >>> 32) &&& 7 ≠ TypeFlagObject ∧ (v.Ref >>> 32) &&& 7 ≠ TypeFlagString ∧
        (v.Ref >>> 32) &&& 7 ≠ TypeFlagSymbol ∧ (v.Ref >>> 32) &&& 7 ≠ TypeFlagFunction := by
  simp only [Value.hostTyped, Bool.and_eq_true, bne_iff_ne, ne_eq, Bool.not_eq_true',
    and_assoc]

/-- On a ref that is `hostTyped`, `v.Type()` is the question to the host. -/
theorem TypeOf_of_hostTyped (g : Globals) (h : Host) (fuel : Nat) (v : Value)
    (hv : v.hostTyped = true) : v.TypeOf g h fuel = v.typeOfHost g h fuel := by
  obtain ⟨h0, h1, h2, h3, h4, h5, h6, h7, h8⟩ := (hostTyped_iff v).mp hv
  rw [TypeOf_eq, if_neg h0, if_neg h1, if_neg (by simp [h2, h3]), if_neg (by simp [h4]),
    if_neg h5, if_neg h6, if_neg h7, if_neg h8]

/-- The type that is read off the ref, when it can be. -/
theorem TypeOf_of_not_hostTyped (g : Globals) (h : Host) (fuel : Nat) (v : Value)
    (hv : v.hostTyped = false) :
    ∃ ty, ty ≠ TypeBigInt ∧ ∀ t, v.TypeOf g h fuel t = (.ok ty, t) := by
  rw [TypeOf_eq]
  by_cases h0 : v.Ref = Undefined.Ref
  · exact ⟨TypeUndefined, by decide, fun t => by rw [if_pos h0]; rfl⟩
  by_cases h1 : v.Ref = Null.Ref
  · exact ⟨TypeNull, by decide, fun t => by rw [if_neg h0, if_pos h1]; rfl⟩
  by_cases h2 : v.Ref = Boolean.True.Value.Ref ∨ v.Ref = Boolean.False.Value.Ref
  · exact ⟨TypeBoolean, by decide, fun t => by rw [if_neg h0, if_neg h1, if_pos h2]; rfl⟩
  by_cases h4 : v.IsNumber = true
  · exact ⟨TypeNumber, by decide,
      fun t => by rw [if_neg h0, if_neg h1, if_neg h2, if_pos h4]; rfl⟩
  by_cases h5 : (v.Ref >>> 32) &&& 7 = TypeFlagObject
  · exact ⟨TypeObject, by decide,
      fun t => by rw [if_neg h0, if_neg h1, if_neg h2, if_neg h4, if_pos h5]; rfl⟩
  by_cases h6 : (v.Ref >>> 32) &&& 7 = TypeFlagString
  · exact ⟨TypeString, by decide,
      fun t => by rw [if_neg h0, if_neg h1, if_neg h2, if_neg h4, if_neg h5, if_pos h6]; rfl⟩
  by_cases h7 : (v.Ref >>> 32) &&& 7 = TypeFlagSymbol
  · exact ⟨TypeSymbol, by decide, fun t => by
      rw [if_neg h0, if_neg h1, if_neg h2, if_neg h4, if_neg h5, if_neg h6, if_pos h7]; rfl⟩
  by_cases h8 : (v.Ref >>> 32) &&& 7 = TypeFlagFunction
  · exact ⟨TypeFunction, by decide, fun t => by
      rw [if_neg h0, if_neg h1, if_neg h2, if_neg h4, if_neg h5, if_neg h6, if_neg h7,
        if_pos h8]; rfl⟩
  exfalso
  have : v.hostTyped = true := by
    rw [hostTyped_iff]
    exact ⟨h0, h1, fun e => h2 (Or.inl e), fun e => h2 (Or.inr e), by simpa using h4,
      h5, h6, h7, h8⟩
  rw [this] at hv
  exact Bool.noConfusion hv

/-- The question to the host has one answer only: bigint. -/
theorem typeOfHost_eq_ok (g : Globals) (h : Host) (fuel : Nat) (v : Value)
    (t t' : List Crossing) (ty : ValueType)
    (hr : v.typeOfHost g h fuel t = (.ok ty, t')) : ty = TypeBigInt := by
  cases fuel with
  | zero => exact Outcome.noConfusion (congrArg Prod.fst hr)
  | succ n =>
    unfold Value.typeOfHost at hr
    obtain ⟨con, t1, _, hr⟩ := Exec.bind_eq_ok hr
    obtain ⟨c, t2, _, hr⟩ := Exec.bind_eq_ok hr
    obtain ⟨b, t3, _, hr⟩ := Exec.bind_eq_ok hr
    split at hr
    · have e : (Outcome.ok TypeBigInt : Outcome ValueType) = Outcome.ok ty :=
        congrArg Prod.fst hr
      injection e with e
      exact e.symm
    · exact Outcome.noConfusion (congrArg Prod.fst hr)

/-- A NaN-headed ref with one of the four type flags is not reserved, not a
number, and its type is read off the flag. -/
theorem not_reserved_of_flag (v : Value) (hh : (v.Ref >>> 32) &&& NaNHead = NaNHead)
    (hf : (v.Ref >>> 32) &&& 7 ≠ TypeFlagNone) :
    v.Ref ≠ Undefined.Ref ∧ v.Ref ≠ Null.Ref ∧ v.Ref ≠ Boolean.True.Value.Ref ∧
      v.Ref ≠ Boolean.False.Value.Ref ∧ ¬ v.IsNumber = true := by
  rw [and_NaNHead_eq_iff, Nat.shiftRight_eq_div_pow] at hh
  rw [and_seven, Nat.shiftRight_eq_div_pow] at hf
  rw [IsNumber_iff, Undefined_Ref, Null_Ref, True_Ref, False_Ref]
  simp only [TypeFlagNone, Ref, Nat.reducePow] at *
  omega

/-- A NaN-headed ref with the flag none that is not one of the five reserved
scalars is `hostTyped`. -/
theorem hostTyped_of_flag_none (v : Value) (hh : (v.Ref >>> 32) &&& NaNHead = NaNHead)
    (hf : (v.Ref >>> 32) &&& 7 = TypeFlagNone)
    (hr : v.Ref ≠ ValueNaN.Ref ∧ v.Ref ≠ ValueZero.Ref ∧ v.Ref ≠ Null.Ref ∧
      v.Ref ≠ Boolean.True.Value.Ref ∧ v.Ref ≠ Boolean.False.Value.Ref) :
    v.hostTyped = true := by
  rw [hostTyped_iff]
  obtain ⟨r0, r1, r2, r3, r4⟩ := hr
  refine ⟨?_, r2, r3, r4, ?_, ?_, ?_, ?_, ?_⟩
  · rw [and_NaNHead_eq_iff, Nat.shiftRight_eq_div_pow] at hh
    rw [Undefined_Ref]
    simp only [Ref, Nat.reducePow] at *
    omega
  · rw [Bool.eq_false_iff, ne_eq, IsNumber_iff]
    rw [and_NaNHead_eq_iff, Nat.shiftRight_eq_div_pow] at hh
    rw [ValueNaN_Ref] at r0
    rw [ValueZero_Ref] at r1
    simp only [Ref, Nat.reducePow] at *
    omega
  all_goals
    rw [hf]
    decide

/-- The question to the host, step by step: once `Reflect.Constructor(v)` has
returned `con` and `Reflect.Get(con, "constructor")` has returned `c`, one
lookup of `BigInt` on the global object is made and `c` is compared with it. -/
theorem typeOfHost_succ (g : Globals) (h : Host) (n : Nat) (v c : Value)
    (t t1 t2 : List Crossing) (o : Object)
    (hcon : ReflectType.ConstructorWith h (Value.TypeOf g h n) g.Reflect { ValueOf := v } t =
      (.ok o, t1))
    (hget : ReflectType.GetWith h (Value.TypeOf g h n) g.Reflect o g.constructorProperty t1 =
      (.ok c, t2)) :
    v.typeOfHost g h (n + 1) t =
      if c.Equal (MakeValue (h.valueGet t2 Global.Value.Ref "BigInt")) = true then
        (.ok TypeBigInt, t2 ++ [.valueGet Global.Value.Ref "BigInt"])
      else
        (.panic (.str ("invalid type: " ++ toString ((v.Ref >>> 32) &&& 7))),
          t2 ++ [.valueGet Global.Value.Ref "BigInt"]) := by
  rw [Value.typeOfHost, Exec.bind_ok hcon, Exec.bind_ok hget]
  have hb : Global.Get h "BigInt" t2 =
      (.ok (MakeValue (h.valueGet t2 Global.Value.Ref "BigInt")),
        t2 ++ [.valueGet Global.Value.Ref "BigInt"]) := rfl
  rw [Exec.bind_ok hb]
  split <;> rfl

/-- C4: `v.Type()` is undefined exactly for the ref 0, null for the reserved
null, boolean for the reserved true and false, number for every number ref,
and object, string, symbol, function for a NaN-headed ref with type flag 1, 2,
3, 4, all with no crossing.  For a NaN-headed ref with the flag none that is
not a reserved scalar, the host is asked: when `Reflect.Constructor(v)` and
`Reflect.Get(_, "constructor")` have returned, `BigInt` is looked up on the
global object; if the two are `Equal` the type is bigint, and if not the call
panics with "invalid type: 0"; no other type is ever returned for such a ref. -/
theorem Type_classifies (g : Globals) (h : Host) (fuel : Nat) (v : Value) (t : List Crossing) :
    ((v.TypeOf g h fuel t).1 = .ok TypeUndefined ↔ v.Ref = Undefined.Ref) ∧
      (v.Ref = Undefined.Ref → v.TypeOf g h fuel t = (.ok TypeUndefined, t)) ∧
      (v.Ref = Null.Ref → v.TypeOf g h fuel t = (.ok TypeNull, t)) ∧
      (v.Ref = Boolean.True.Value.Ref ∨ v.Ref = Boolean.False.Value.Ref →
        v.TypeOf g h fuel t = (.ok TypeBoolean, t)) ∧
      (v.IsNumber = true → v.TypeOf g h fuel t = (.ok TypeNumber, t)) ∧
      ((v.Ref >>> 32) &&& NaNHead = NaNHead →
        ((v.Ref >>> 32) &&& 7 = TypeFlagObject → v.TypeOf g h fuel t = (.ok TypeObject, t)) ∧
        ((v.Ref >>> 32) &&& 7 = TypeFlagString → v.TypeOf g h fuel t = (.ok TypeString, t)) ∧
        ((v.Ref >>> 32) &&& 7 = TypeFlagSymbol → v.TypeOf g h fuel t = (.ok TypeSymbol, t)) ∧
        ((v.Ref >>> 32) &&& 7 = TypeFlagFunction →
          v.TypeOf g h fuel t = (.ok TypeFunction, t))) ∧
      ((v.Ref >>> 32) &&& NaNHead = NaNHead → (v.Ref >>> 32) &&& 7 = TypeFlagNone →
        (v.Ref ≠ ValueNaN.Ref ∧ v.Ref ≠ ValueZero.Ref ∧ v.Ref ≠ Null.Ref ∧
          v.Ref ≠ Boolean.True.Value.Ref ∧ v.Ref ≠ Boolean.False.Value.Ref) →
        (∀ ty t', v.TypeOf g h fuel t = (.ok ty, t') → ty = TypeBigInt) ∧
        (∀ n o c t1 t2, fuel = n + 1 →
          ReflectType.ConstructorWith h (Value.TypeOf g h n) g.Reflect { ValueOf := v } t =
            (.ok o, t1) →
          ReflectType.GetWith h (Value.TypeOf g h n) g.Reflect o g.constructorProperty t1 =
            (.ok c, t2) →
          (c.Equal (MakeValue (h.valueGet t2 Global.Value.Ref "BigInt")) = true →
            v.TypeOf g h fuel t =
              (.ok TypeBigInt, t2 ++ [.valueGet Global.Value.Ref "BigInt"])) ∧
          (c.Equal (MakeValue (h.valueGet t2 Global.Value.Ref "BigInt")) = false →
            v.TypeOf g h fuel t =
              (.panic (.str "invalid type: 0"),
                t2 ++ [.valueGet Global.Value.Ref "BigInt"])))) := by
  have hU : v.Ref = Undefined.Ref → v.TypeOf g h fuel t = (.ok TypeUndefined, t) := by
    intro h0
    rw [TypeOf_eq, if_pos h0]
    rfl
  refine ⟨⟨?_, fun h0 => by rw [hU h0]⟩, hU, ?_, ?_, TypeOf_of_IsNumber g h fuel v t, ?_, ?_⟩
  · intro hr
    by_contra h0
    by_cases hv : v.hostTyped = true
    · rw [TypeOf_of_hostTyped g h fuel v hv] at hr
      rcases hrt : v.typeOfHost g h fuel t with ⟨o, t'⟩
      rw [hrt] at hr
      simp only at hr
      rw [hr] at hrt
      exact absurd (typeOfHost_eq_ok g h fuel v t t' _ hrt) (by decide)
    · rw [TypeOf_eq, if_neg h0] at hr
      repeat' split at hr
      all_goals first
        | exact Outcome.noConfusion hr
        | (injection hr with hr; exact ValueType.noConfusion hr)
        | skip
      apply hv
      rw [hostTyped_iff]
      rename_i h1 h2 h4 h5 h6 h7 h8
      exact ⟨h0, h1, fun e => h2 (Or.inl e), fun e => h2 (Or.inr e), by simpa using h4,
        h5, h6, h7, h8⟩
  · intro h1
    have h0 : v.Ref ≠ Undefined.Ref := by rw [h1]; decide
    rw [TypeOf_eq, if_neg h0, if_pos h1]
    rfl
  · intro h2
    have h0 : v.Ref ≠ Undefined.Ref := by rcases h2 with e | e <;> rw [e] <;> decide
    have h1 : v.Ref ≠ Null.Ref := by rcases h2 with e | e <;> rw [e] <;> decide
    rw [TypeOf_eq, if_neg h0, if_neg h1, if_pos h2]
    rfl
  · intro hh
    refine ⟨?_, ?_, ?_, ?_⟩ <;> intro hf
    all_goals
      obtain ⟨h0, h1, h2, h3, h4⟩ := not_reserved_of_flag v hh (by rw [hf]; decide)
      rw [TypeOf_eq, if_neg h0, if_neg h1, if_neg (by simp [h2, h3]), if_neg h4]
    · rw [if_pos hf]; rfl
    · rw [if_neg (by rw [hf]; decide), if_pos hf]; rfl
    · rw [if_neg (by rw [hf]; decide), if_neg (by rw [hf]; decide), if_pos hf]; rfl
    · rw [if_neg (by rw [hf]; decide), if_neg (by rw [hf]; decide),
        if_neg (by rw [hf]; decide), if_pos hf]; rfl
  · intro hh hf hr
    have hv := hostTyped_of_flag_none v hh hf hr
    rw [TypeOf_of_hostTyped g h fuel v hv]
    refine ⟨fun ty t' hty => typeOfHost_eq_ok g h fuel v t t' ty hty, ?_⟩
    intro n o c t1 t2 hn hcon hget
    subst hn
    rw [typeOfHost_succ g h n v c t t1 t2 o hcon hget, hf]
    constructor
    · intro he
      rw [if_pos he]
    · intro he
      rw [if_neg (by rw [he]; exact Bool.false_ne_true)]
      rfl

/-- C4, on the sample host: the ref of `0n` has the NaN head and the flag
none and is not reserved; the host answers that its constructor is `BigInt`,
and `Type` returns bigint after five crossings, with one unit of fuel. -/
theorem Type_classifies_witness :
    (MakeValue Sample.bigZero).TypeOf Sample.globals Sample.host 1 [] =
      (.ok TypeBigInt,
        [.valueGet Sample.reflect "constructor", .valueInvoke Sample.objectCtor [Sample.bigZero],
          .valueGet Sample.reflect "get",
          .valueInvoke Sample.reflectGet [Sample.bigZeroObject, Sample.constructorStr]] ++
          [.valueGet Global.Value.Ref "BigInt"]) :=
  (((Type_classifies Sample.globals Sample.host 1 (MakeValue Sample.bigZero) []).2.2.2.2.2.2
    (by decide) (by decide) (by decide)).2 0
    { Value := MakeValue Sample.bigZeroObject, methods := none } (MakeValue Sample.bigIntCtor)
    [.valueGet Sample.reflect "constructor", .valueInvoke Sample.objectCtor [Sample.bigZero]]
    [.valueGet Sample.reflect "constructor", .valueInvoke Sample.objectCtor [Sample.bigZero],
      .valueGet Sample.reflect "get",
      .valueInvoke Sample.reflectGet [Sample.bigZeroObject, Sample.constructorStr]]
    rfl (by rfl) (by rfl)).1 (by decide)

/-! ## The receiver check of `Set`, `Delete`, `Index`, `SetIndex`, `Length` -/

/-- C6: when `v.Type()` returns a type that is neither object nor function,
each of `Set`, `Delete`, `Index`, `SetIndex` and `Length` panics with a
`ValueError` whose type is that type, and no `valueSet`, `valueDelete`,
`valueIndex`, `valueSetIndex` or `valueLength` crossing is made: the crossings
made are those of `v.Type()` itself, none of which is one of the five. -/
theorem receiver_check_fails (g : Globals) (h : Host) (fuel : Nat) (v : Value)
    (t t' : List Crossing) (ty : ValueType) (p : String) (x : Any) (i : Int)
    (hty : v.TypeOf g h fuel t = (.ok ty, t')) (hno : ty.IsObject = false) :
    v.Set g h fuel p x t = (.panic (.valueError { Method := "Value.Set", Ty := ty }), t') ∧
      v.Delete g h fuel p t =
        (.panic (.valueError { Method := "Value.Delete", Ty := ty }), t') ∧
      v.Index g h fuel i t = (.panic (.valueError { Method := "Value.Index", Ty := ty }), t') ∧
      v.SetIndex g h fuel i x t =
        (.panic (.valueError { Method := "Value.SetIndex", Ty := ty }), t') ∧
      (∃ e : ValueError, v.Length g h fuel t = (.panic (.valueError e), t') ∧ e.Ty = ty) ∧
      ∃ ext, t' = t ++ ext ∧ ∀ c ∈ ext, c.isReceiverOp = false := by
  refine ⟨?_, ?_, ?_, ?_, ⟨{ Method := "Value.SetIndex", Ty := ty }, ?_, rfl⟩, ?_⟩
  · rw [Value.Set, Value.SetWith, Exec.bind_ok hty]
    simp only [hno, Bool.not_false, if_true]
    rfl
  · rw [Value.Delete, Value.DeleteWith, Exec.bind_ok hty]
    simp only [hno, Bool.not_false, if_true]
    rfl
  · rw [Value.Index, Value.IndexWith, Exec.bind_ok hty]
    simp only [hno, Bool.not_false, if_true]
    rfl
  · rw [Value.SetIndex, Value.SetIndexWith, Exec.bind_ok hty]
    simp only [hno, Bool.not_false, if_true]
    rfl
  · rw [Value.Length, Value.LengthWith, Exec.bind_ok hty]
    simp only [hno, Bool.not_false, if_true]
    rfl
  · obtain ⟨⟨ext, he, hP⟩, _⟩ := TypeOf_queryOnly g h fuel v t
    rw [hty] at he
    refine ⟨ext, he, fun c hc => ?_⟩
    have := hP c hc
    cases c <;> first | rfl | exact Bool.noConfusion this

/-- C6, on the sample host: a string, whose type is read off the ref, and the
bigint `0n`, whose type the host is asked for. -/
theorem receiver_check_fails_witness :
    (MakeValue Sample.hello).Set Sample.globals Sample.host 0 "p" .nil [] =
        (.panic (.valueError { Method := "Value.Set", Ty := TypeString }), []) ∧
      (MakeValue Sample.bigZero).Delete Sample.globals Sample.host 1 "p" [] =
        (.panic (.valueError { Method := "Value.Delete", Ty := TypeBigInt }),
          [.valueGet Sample.reflect "constructor",
            .valueInvoke Sample.objectCtor [Sample.bigZero],
            .valueGet Sample.reflect "get",
            .valueInvoke Sample.reflectGet [Sample.bigZeroObject, Sample.constructorStr],
            .valueGet Global.Value.Ref "BigInt"]) :=
  ⟨(receiver_check_fails Sample.globals Sample.host 0 (MakeValue Sample.hello) [] []
      TypeString "p" .nil 0 (by rfl) (by decide)).1,
    (receiver_check_fails Sample.globals Sample.host 1 (MakeValue Sample.bigZero) [] _
      TypeBigInt "p" .nil 0 (by rfl) (by decide)).2.1⟩

/-- C7, at the failing input: `Length` on the undefined value panics with a
`ValueError` whose method is "Value.SetIndex", not "Value.Length", and whose
text names `Value.SetIndex`. -/
theorem Length_error_names_SetIndex (g : Globals) (h : Host) (fuel : Nat) (t : List Crossing) :
    Undefined.Length g h fuel t =
        (.panic (.valueError { Method := "Value.SetIndex", Ty := TypeUndefined }), t) ∧
      ValueError.Error { Method := "Value.SetIndex", Ty := TypeUndefined } =
        "syscall/js: call of Value.SetIndex on undefined" ∧
      Undefined.Length g h fuel t ≠
        (.panic (.valueError { Method := "Value.Length", Ty := TypeUndefined }), t) := by
  have hl : Undefined.Length g h fuel t =
      (.panic (.valueError { Method := "Value.SetIndex", Ty := TypeUndefined }), t) := by
    have hty : Undefined.TypeOf g h fuel t = (.ok TypeUndefined, t) := by
      rw [TypeOf_eq, if_pos rfl]
      rfl
    rw [Value.Length, Value.LengthWith, Exec.bind_ok hty]
    rfl
  refine ⟨hl, by decide, ?_⟩
  rw [hl]
  intro he
  injection he with he _
  injection he with he
  injection he with he
  exact absurd he (by decide)

/-! ## The call bridge -/

/-- The function `MakeValue` keeps the ref. -/
theorem MakeValue_Ref (r : Ref) : (MakeValue r).Ref = r := by
  simp only [MakeValue]
  split <;> rfl

/-- A type other than bigint is read off the ref: `v.Type()` made no crossing. -/
theorem TypeOf_ok_no_crossing (g : Globals) (h : Host) (fuel : Nat) (v : Value)
    (t t' : List Crossing) (ty : ValueType)
    (hty : v.TypeOf g h fuel t = (.ok ty, t')) (hne : ty ≠ TypeBigInt) : t' = t := by
  by_cases hv : v.hostTyped = true
  · rw [TypeOf_of_hostTyped g h fuel v hv] at hty
    exact absurd (typeOfHost_eq_ok g h fuel v t t' ty hty) hne
  · obtain ⟨ty', _, hp⟩ := TypeOf_of_not_hostTyped g h fuel v (by simpa using hv)
    rw [hp t] at hty
    exact (congrArg Prod.snd hty).symm

/-- On a ref that is not `hostTyped`, `v.Type()` makes no crossing. -/
theorem TypeOf_no_crossing_of_not_hostTyped (g : Globals) (h : Host) (fuel : Nat) (v : Value)
    (t t' : List Crossing) (ty : ValueType)
    (hty : v.TypeOf g h fuel t = (.ok ty, t')) (hv : v.hostTyped = false) : t' = t := by
  obtain ⟨ty', _, hp⟩ := TypeOf_of_not_hostTyped g h fuel v hv
  rw [hp t] at hty
  exact (congrArg Prod.snd hty).symm

theorem resultOf_success (ty : Value → Exec ValueType) (res : Ref) (t : List Crossing) :
    resultOf ty res true t = (.ok (MakeValue res, none), t) := rfl

theorem resultOf_failure_object (ty : Value → Exec ValueType) (res : Ref)
    (t t' : List Crossing) (ty' : ValueType)
    (hty : ty (MakeValue res) t = (.ok ty', t')) (ho : ty'.IsObject = true) :
    resultOf ty res false t =
      (.ok (Undefined, some (.Error { Object := { Value := MakeValue res, methods := none } })),
        t') := by
  have ho' : ObjectOfWith ty { ValueOf := MakeValue res } t =
      (.ok ({ Value := MakeValue res, methods := none }, true), t') := by
    rw [ObjectOfWith, Exec.bind_ok hty]
    simp only [ho, Bool.not_true, Bool.false_eq_true, if_false]
    rfl
  rw [resultOf]
  simp only [Bool.not_false, if_true]
  rw [Exec.bind_ok ho']
  rfl

theorem resultOf_failure_other (ty : Value → Exec ValueType) (res : Ref)
    (t t' : List Crossing) (ty' : ValueType)
    (hty : ty (MakeValue res) t = (.ok ty', t')) (ho : ty'.IsObject = false) :
    resultOf ty res false t = (.panic (.str "non-object error"), t') := by
  have ho' : ObjectOfWith ty { ValueOf := MakeValue res } t =
      (.ok ({ Value := { Ref := 0, GCPtr := none }, methods := none }, false), t') := by
    rw [ObjectOfWith, Exec.bind_ok hty]
    simp only [ho, Bool.not_false, if_true]
    rfl
  rw [resultOf]
  simp only [Bool.not_false, if_true]
  rw [Exec.bind_ok ho']
  rfl

/-- The call `o.Call(m, args)` on a facade whose cache is empty: the lookup of `m` on
the receiver's ref, then `FunctionOf` on what was found. -/
theorem Call_eq (g : Globals) (h : Host) (fuel : Nat) (o : Object) (m : String)
    (args : List Valuer) (t : List Crossing) (hm : o.methods = none) :
    o.Call g h fuel m args t =
      ((FunctionOfWith (Value.TypeOf g h fuel)
          { ValueOf := MakeValue (h.valueGet t o.Value.Ref m) }) >>= fun x =>
        if (!x.2) = true then
          (pure (Undefined, some (.MethodError { Method := m })) :
            Exec (Value × Option error))
        else
          (valueInvoke h x.1.Value.Ref (args.map fun arg => arg.ValueOf.Ref)) >>= fun r =>
            resultOf (Value.TypeOf g h fuel) r.1 r.2)
        (t ++ [.valueGet o.Value.Ref m]) := by
  have hg : o.Get h m t =
      (.ok (MakeValue (h.valueGet t o.Value.Ref m)), t ++ [.valueGet o.Value.Ref m]) := rfl
  rw [Object.Call, Object.CallWith]
  simp only [hm, MakeArgs, List.lookup]
  rw [Exec.bind_ok hg]

theorem resultOf_pairRule (g : Globals) (h : Host) (fuel : Nat) (res : Ref) (ok : Bool)
    (t0 : List Crossing) :
    PairRule g h fuel res ok t0 (resultOf (Value.TypeOf g h fuel) res ok t0) := by
  refine ⟨fun hk => by rw [hk]; rfl, fun hk => ⟨fun ty t' hty => ⟨fun ho => ?_, fun ho => ?_⟩,
    fun p t' hty => ?_, fun t' hty => ?_⟩⟩
  · have ht : t' = t0 := TypeOf_ok_no_crossing g h fuel _ t0 t' ty hty (by
      intro e; rw [e] at ho; exact Bool.noConfusion ho)
    rw [hk, resultOf_failure_object _ res t0 t' ty hty ho, ht]
  · refine ⟨by rw [hk, resultOf_failure_other _ res t0 t' ty hty ho], fun hv => ?_⟩
    exact TypeOf_no_crossing_of_not_hostTyped g h fuel _ t0 t' ty hty hv
  · have ho' : ObjectOfWith (Value.TypeOf g h fuel) { ValueOf := MakeValue res } t0 =
        (.panic p, t') := by
      rw [ObjectOfWith, Exec.bind_panic hty]
    rw [hk, resultOf]
    simp only [Bool.not_false, if_true]
    rw [Exec.bind_panic ho']
  · have ho' : ObjectOfWith (Value.TypeOf g h fuel) { ValueOf := MakeValue res } t0 =
        (.outOfFuel, t') := by
      rw [ObjectOfWith, Exec.bind_outOfFuel hty]
    rw [hk, resultOf]
    simp only [Bool.not_false, if_true]
    rw [Exec.bind_outOfFuel ho']

theorem Invoke_eq (g : Globals) (h : Host) (fuel : Nat) (f : Function) (args : List Valuer)
    (t : List Crossing) :
    f.Invoke g h fuel args t =
      resultOf (Value.TypeOf g h fuel) (h.valueInvoke t f.Value.Ref (MakeArgs args).2).1
        (h.valueInvoke t f.Value.Ref (MakeArgs args).2).2
        (t ++ [.valueInvoke f.Value.Ref (MakeArgs args).2]) := rfl

theorem New_eq (g : Globals) (h : Host) (fuel : Nat) (f : Function) (args : List Valuer)
    (t : List Crossing) :
    f.New g h fuel args t =
      resultOf (Value.TypeOf g h fuel) (h.valueNew t f.Value.Ref (MakeArgs args).2).1
        (h.valueNew t f.Value.Ref (MakeArgs args).2).2
        (t ++ [.valueNew f.Value.Ref (MakeArgs args).2]) := rfl

/-- The call `o.Call(m, args)` once the lookup of `m` has given a function: one invoke
crossing on the value found, then `resultOf`. -/
theorem Call_eq_of_function (g : Globals) (h : Host) (fuel : Nat) (o : Object) (m : String)
    (args : List Valuer) (t t1 : List Crossing) (hm : o.methods = none)
    (hty : (MakeValue (h.valueGet t o.Value.Ref m)).TypeOf g h fuel
      (t ++ [.valueGet o.Value.Ref m]) = (.ok TypeFunction, t1)) :
    o.Call g h fuel m args t =
      resultOf (Value.TypeOf g h fuel)
        (h.valueInvoke (t ++ [.valueGet o.Value.Ref m]) (h.valueGet t o.Value.Ref m)
          (MakeArgs args).2).1
        (h.valueInvoke (t ++ [.valueGet o.Value.Ref m]) (h.valueGet t o.Value.Ref m)
          (MakeArgs args).2).2
        (t ++ [.valueGet o.Value.Ref m,
          .valueInvoke (h.valueGet t o.Value.Ref m) (MakeArgs args).2]) := by
  have ht1 : t1 = t ++ [.valueGet o.Value.Ref m] :=
    TypeOf_ok_no_crossing g h fuel _ _ t1 _ hty (by decide)
  rw [ht1] at hty
  have hf : FunctionOfWith (Value.TypeOf g h fuel)
      { ValueOf := MakeValue (h.valueGet t o.Value.Ref m) } (t ++ [.valueGet o.Value.Ref m]) =
      (.ok ({ Value := MakeValue (h.valueGet t o.Value.Ref m), id := 0 }, true),
        t ++ [.valueGet o.Value.Ref m]) := by
    rw [FunctionOfWith, Exec.bind_ok hty]
    rfl
  rw [Call_eq g h fuel o m args t hm, Exec.bind_ok hf]
  have hr : (MakeValue (h.valueGet t o.Value.Ref m)).Ref = h.valueGet t o.Value.Ref m :=
    MakeValue_Ref _
  simp only [Bool.not_true, Bool.false_eq_true, if_false, hr]
  have hi : valueInvoke h (h.valueGet t o.Value.Ref m)
      (args.map fun arg => arg.ValueOf.Ref) (t ++ [.valueGet o.Value.Ref m]) =
      (.ok (h.valueInvoke (t ++ [.valueGet o.Value.Ref m]) (h.valueGet t o.Value.Ref m)
          (MakeArgs args).2),
        t ++ [.valueGet o.Value.Ref m] ++
          [.valueInvoke (h.valueGet t o.Value.Ref m) (MakeArgs args).2]) := rfl
  rw [Exec.bind_ok hi, List.append_assoc]
  rfl

/-- What follows the lookup in `o.Call(m, args)` only makes lookups, invokes
and string reads. -/
theorem Call_rest_queryOnly (g : Globals) (h : Host) (fuel : Nat) (m : String)
    (args : List Valuer) (p : Value) :
    QueryOnly ((FunctionOfWith (Value.TypeOf g h fuel) { ValueOf := p }) >>= fun x =>
      if (!x.2) = true then
        (pure (Undefined, some (.MethodError { Method := m })) : Exec (Value × Option error))
      else
        (valueInvoke h x.1.Value.Ref (args.map fun arg => arg.ValueOf.Ref)) >>= fun r =>
          resultOf (Value.TypeOf g h fuel) r.1 r.2) := by
  refine Exec.Within.bind (FunctionOfWith_queryOnly (TypeOf_queryOnly g h fuel) _) (fun x => ?_)
  split
  · exact Exec.Within.pure _
  · exact Exec.Within.bind (Exec.Within.cross _ _ rfl)
      (fun r => resultOf_queryOnly (TypeOf_queryOnly g h fuel) _ _)

/-- C8, as amended: `o.Call(m, args)` makes no check of the receiver's type.
For every facade `o` with an empty method cache, whatever the type of its
value: the first crossing is the lookup `valueGet(o.Ref, m)`; the call never
panics with a `ValueError`; and when the value found is a function, the
second crossing is the invoke of that value with the refs of the arguments. -/
theorem Call_has_no_receiver_check (g : Globals) (h : Host) (fuel : Nat) (o : Object)
    (m : String) (args : List Valuer) (t : List Crossing) (hm : o.methods = none) :
    (∃ ext, (o.Call g h fuel m args t).2 = t ++ Crossing.valueGet o.Value.Ref m :: ext) ∧
      (∀ p, (o.Call g h fuel m args t).1 = .panic p → p.notValueError = true) ∧
      (∀ t1, (MakeValue (h.valueGet t o.Value.Ref m)).TypeOf g h fuel
          (t ++ [.valueGet o.Value.Ref m]) = (.ok TypeFunction, t1) →
        ∃ ext, (o.Call g h fuel m args t).2 =
          t ++ Crossing.valueGet o.Value.Ref m ::
            Crossing.valueInvoke (h.valueGet t o.Value.Ref m) (MakeArgs args).2 :: ext) := by
  refine ⟨?_, ?_, ?_⟩
  · rw [Call_eq g h fuel o m args t hm]
    obtain ⟨⟨ext, he, _⟩, _⟩ := Call_rest_queryOnly g h fuel m args
      (MakeValue (h.valueGet t o.Value.Ref m)) (t ++ [.valueGet o.Value.Ref m])
    exact ⟨ext, by rw [he, List.append_assoc]; rfl⟩
  · exact (CallWith_queryOnly h (TypeOf_queryOnly g h fuel) o m args t).2
  · intro t1 hty
    rw [Call_eq_of_function g h fuel o m args t t1 hm hty]
    obtain ⟨⟨ext, he, _⟩, _⟩ := resultOf_queryOnly (TypeOf_queryOnly g h fuel)
      (h.valueInvoke (t ++ [.valueGet o.Value.Ref m]) (h.valueGet t o.Value.Ref m)
        (MakeArgs args).2).1
      (h.valueInvoke (t ++ [.valueGet o.Value.Ref m]) (h.valueGet t o.Value.Ref m)
        (MakeArgs args).2).2
      (t ++ [.valueGet o.Value.Ref m,
        .valueInvoke (h.valueGet t o.Value.Ref m) (MakeArgs args).2])
    exact ⟨ext, by rw [he, List.append_assoc]; rfl⟩

/-- C8, on the sample host: the `String` facade of `"hello"`. -/
theorem Call_has_no_receiver_check_witness :
    ∃ ext, (Object.Call Sample.globals Sample.host 0
        { Value := MakeValue Sample.hello, methods := none } "indexOf"
        [{ ValueOf := MakeValue Sample.hello }] []).2 =
      [] ++ Crossing.valueGet Sample.hello "indexOf" :: ext :=
  (Call_has_no_receiver_check Sample.globals Sample.host 0
    { Value := MakeValue Sample.hello, methods := none } "indexOf"
    [{ ValueOf := MakeValue Sample.hello }] [] rfl).1

/-- C8, as stated, fails on the `String` facade of `"hello"`: its type is
string, neither object nor function, yet `Call("indexOf", s)` makes the lookup
and the invoke crossing and returns the host's result with a nil error. -/
theorem Call_on_string_facade_crosses :
    (MakeValue Sample.hello).TypeOf Sample.globals Sample.host 0 [] = (.ok TypeString, []) ∧
      TypeString.IsObject = false ∧
      Object.Call Sample.globals Sample.host 0
          { Value := MakeValue Sample.hello, methods := none } "indexOf"
          [{ ValueOf := MakeValue Sample.hello }] [] =
        (.ok (MakeValue Sample.one, none),
          [.valueGet Sample.hello "indexOf", .valueInvoke Sample.indexOf [Sample.hello]]) := by
  refine ⟨by rfl, by decide, by rfl⟩

/-- C9, as amended: on a facade with an empty method cache, when the value
found by the lookup of `m` has a type other than function, `o.Call(m, args)`
returns the undefined value and `MethodError{Method: m}`, whose text is
"no such method " followed by `m`.  The crossings made are the lookup and
those of asking for the type of the value found: none when the type is read
off the ref (any type but bigint), and only lookups, invokes and string reads
when the host is asked. -/
theorem Call_missing_method (g : Globals) (h : Host) (fuel : Nat) (o : Object) (m : String)
    (args : List Valuer) (t t' : List Crossing) (ty : ValueType) (hm : o.methods = none)
    (hty : (MakeValue (h.valueGet t o.Value.Ref m)).TypeOf g h fuel
      (t ++ [.valueGet o.Value.Ref m]) = (.ok ty, t'))
    (hnf : ty ≠ TypeFunction) :
    o.Call g h fuel m args t =
        (.ok (Undefined, some (.MethodError { Method := m })), t') ∧
      MethodError.Error { Method := m } = "no such method " ++ m ∧
      (ty ≠ TypeBigInt → t' = t ++ [.valueGet o.Value.Ref m]) ∧
      ((MakeValue (h.valueGet t o.Value.Ref m)).hostTyped = false →
        t' = t ++ [.valueGet o.Value.Ref m]) ∧
      ∃ ext, t' = t ++ Crossing.valueGet o.Value.Ref m :: ext ∧ ∀ c ∈ ext, c.isQuery = true := by
  refine ⟨?_, rfl, fun hb => TypeOf_ok_no_crossing g h fuel _ _ t' ty hty hb,
    fun hv => TypeOf_no_crossing_of_not_hostTyped g h fuel _ _ t' ty hty hv, ?_⟩
  · have hf : FunctionOfWith (Value.TypeOf g h fuel)
        { ValueOf := MakeValue (h.valueGet t o.Value.Ref m) }
        (t ++ [.valueGet o.Value.Ref m]) =
        (.ok ({ Value := { Ref := 0, GCPtr := none }, id := 0 }, false), t') := by
      rw [FunctionOfWith, Exec.bind_ok hty]
      simp only [ne_eq, hnf, not_false_eq_true, if_true]
      rfl
    rw [Call_eq g h fuel o m args t hm, Exec.bind_ok hf]
    rfl
  · obtain ⟨⟨ext, he, hP⟩, _⟩ := TypeOf_queryOnly g h fuel
      (MakeValue (h.valueGet t o.Value.Ref m)) (t ++ [.valueGet o.Value.Ref m])
    rw [hty] at he
    have he' : t' = t ++ [.valueGet o.Value.Ref m] ++ ext := he
    exact ⟨ext, by rw [he', List.append_assoc]; rfl, hP⟩

/-- C9, on the sample host: the property `missing` of the sample object is
absent, the lookup gives undefined. -/
theorem Call_missing_method_witness :
    Object.Call Sample.globals Sample.host 0 { Value := MakeValue Sample.obj, methods := none }
        "missing" [] [] =
      (.ok (Undefined, some (.MethodError { Method := "missing" })),
        [.valueGet Sample.obj "missing"]) :=
  (Call_missing_method Sample.globals Sample.host 0
    { Value := MakeValue Sample.obj, methods := none } "missing" [] []
    [.valueGet Sample.obj "missing"] TypeUndefined rfl (by rfl) (by decide)).1

/-- C9, as stated, fails when the property is a bigint: the lookup of `n` on
the sample object gives `0n`, whose type is bigint and not function; the call
returns `MethodError{"n"}`, but after six crossings, two of them invokes. -/
theorem Call_missing_method_bigint_crosses :
    (MakeValue (Sample.host.valueGet [] Sample.obj "n")).TypeOf Sample.globals Sample.host 1
        [.valueGet Sample.obj "n"] =
        (.ok TypeBigInt,
          [.valueGet Sample.obj "n", .valueGet Sample.reflect "constructor",
            .valueInvoke Sample.objectCtor [Sample.bigZero], .valueGet Sample.reflect "get",
            .valueInvoke Sample.reflectGet [Sample.bigZeroObject, Sample.constructorStr],
            .valueGet Global.Value.Ref "BigInt"]) ∧
      Object.Call Sample.globals Sample.host 1
          { Value := MakeValue Sample.obj, methods := none } "n" [] [] =
        (.ok (Undefined, some (.MethodError { Method := "n" })),
          [.valueGet Sample.obj "n", .valueGet Sample.reflect "constructor",
            .valueInvoke Sample.objectCtor [Sample.bigZero], .valueGet Sample.reflect "get",
            .valueInvoke Sample.reflectGet [Sample.bigZeroObject, Sample.constructorStr],
            .valueGet Global.Value.Ref "BigInt"]) ∧
      ((Object.Call Sample.globals Sample.host 1
          { Value := MakeValue Sample.obj, methods := none } "n" [] []).2.filter
        Crossing.isInvoke).length = 2 := by
  refine ⟨by rfl, by rfl, by rfl⟩

/-- C10, as amended: `f.Invoke`, `f.New` and `o.Call` (once the lookup has
given a function) make one invoke or construct crossing on the callee, with
the refs of the arguments, and turn the pair the host returns into their
result by one and the same rule, `PairRule`: on success the decoded result
and a nil error; on failure with an object or a function the undefined value
and an `Error` wrapping exactly that value, with no further crossing; on
failure with anything else the panic "non-object error", with no further
crossing unless the type of the result has to be asked of the host.  The text
of the `Error` starts with a lookup of `message` on the wrapped object. -/
theorem bridge_interprets_pair (g : Globals) (h : Host) (fuel : Nat) (f : Function)
    (o : Object) (m : String) (args : List Valuer) (e : Error) (t : List Crossing) :
    PairRule g h fuel (h.valueInvoke t f.Value.Ref (MakeArgs args).2).1
        (h.valueInvoke t f.Value.Ref (MakeArgs args).2).2
        (t ++ [.valueInvoke f.Value.Ref (MakeArgs args).2]) (f.Invoke g h fuel args t) ∧
      PairRule g h fuel (h.valueNew t f.Value.Ref (MakeArgs args).2).1
        (h.valueNew t f.Value.Ref (MakeArgs args).2).2
        (t ++ [.valueNew f.Value.Ref (MakeArgs args).2]) (f.New g h fuel args t) ∧
      (o.methods = none →
        ∀ t1, (MakeValue (h.valueGet t o.Value.Ref m)).TypeOf g h fuel
            (t ++ [.valueGet o.Value.Ref m]) = (.ok TypeFunction, t1) →
          PairRule g h fuel
            (h.valueInvoke (t ++ [.valueGet o.Value.Ref m]) (h.valueGet t o.Value.Ref m)
              (MakeArgs args).2).1
            (h.valueInvoke (t ++ [.valueGet o.Value.Ref m]) (h.valueGet t o.Value.Ref m)
              (MakeArgs args).2).2
            (t ++ [.valueGet o.Value.Ref m,
              .valueInvoke (h.valueGet t o.Value.Ref m) (MakeArgs args).2])
            (o.Call g h fuel m args t)) ∧
      ∃ ext, (e.Error g h fuel t).2 =
        t ++ Crossing.valueGet e.Object.Value.Ref "message" :: ext := by
  refine ⟨?_, ?_, ?_, ?_⟩
  · rw [Invoke_eq]
    exact resultOf_pairRule g h fuel _ _ _
  · rw [New_eq]
    exact resultOf_pairRule g h fuel _ _ _
  · intro hm t1 hty
    rw [Call_eq_of_function g h fuel o m args t t1 hm hty]
    exact resultOf_pairRule g h fuel _ _ _
  · have hg : e.Object.Get h "message" t =
        (.ok (MakeValue (h.valueGet t e.Object.Value.Ref "message")),
          t ++ [.valueGet e.Object.Value.Ref "message"]) := rfl
    rw [Error.Error, Error.ErrorWith, Exec.bind_ok hg]
    have hq : QueryOnly
        ((MakeValue (h.valueGet t e.Object.Value.Ref "message")).StringWith h
            (Value.TypeOf g h fuel) >>= fun s =>
          (pure ("JavaScript error: " ++ s) : Exec String)) :=
      Exec.Within.bind (StringWith_queryOnly h (TypeOf_queryOnly g h fuel) _)
        (fun _ => Exec.Within.pure _)
    obtain ⟨⟨ext, he, _⟩, _⟩ := hq (t ++ [.valueGet e.Object.Value.Ref "message"])
    exact ⟨ext, by rw [he, List.append_assoc]; rfl⟩

/-- C10, on the sample host: a function that throws `{message: "boom"}`.
`Invoke` makes the one invoke crossing and returns the undefined value and an
`Error` wrapping the thrown object; the `message` property of that object
reads "boom", and the text of the error is "JavaScript error: boom". -/
theorem bridge_interprets_pair_witness :
    Function.Invoke Sample.globals Sample.host 0 { Value := MakeValue Sample.thrower, id := 0 }
        [] [] =
      (.ok (Undefined,
          some (.Error { Object := { Value := MakeValue Sample.errObj, methods := none } })),
        [.valueInvoke Sample.thrower []]) ∧
      ((Object.Get Sample.host { Value := MakeValue Sample.errObj, methods := none } "message"
          >>= fun v => v.StringOf Sample.globals Sample.host 0)
        [.valueInvoke Sample.thrower []]).1 = .ok "boom" ∧
      (Error.Error Sample.globals Sample.host 0
          { Object := { Value := MakeValue Sample.errObj, methods := none } }
          [.valueInvoke Sample.thrower []]).1 = .ok "JavaScript error: boom" :=
  ⟨(((bridge_interprets_pair Sample.globals Sample.host 0
        { Value := MakeValue Sample.thrower, id := 0 }
        { Value := MakeValue Sample.obj, methods := none } "thrower" []
        { Object := { Value := MakeValue Sample.errObj, methods := none } } []).1.2 rfl).1
      TypeObject [.valueInvoke Sample.thrower []] (by rfl)).1 (by decide),
    by rfl, by rfl⟩

/-- C10, as stated, fails when the host reports a failure whose result is a
bigint: `Invoke` on the sample function that throws `0n` panics with
"non-object error", but asking for the type of `0n` has made two more invoke
crossings by then, three in all. -/
theorem Invoke_bigint_failure_crosses :
    Function.Invoke Sample.globals Sample.host 1
        { Value := MakeValue Sample.bigThrower, id := 0 } [] [] =
      (.panic (.str "non-object error"),
        [.valueInvoke Sample.bigThrower [], .valueGet Sample.reflect "constructor",
          .valueInvoke Sample.objectCtor [Sample.bigZero], .valueGet Sample.reflect "get",
          .valueInvoke Sample.reflectGet [Sample.bigZeroObject, Sample.constructorStr],
          .valueGet Global.Value.Ref "BigInt"]) ∧
      ((Function.Invoke Sample.globals Sample.host 1
          { Value := MakeValue Sample.bigThrower, id := 0 } [] []).2.filter
        Crossing.isInvoke).length = 3 := by
  refine ⟨by rfl, by rfl⟩

/-! ## The receiver of a method call -/

/-- C11, at the failing input: `s.Call("indexOf", search)` on the `String`
facade of `"hello"`, with another string as the argument.  The lookup is made
on the receiver, but the one invoke crossing carries the ref of the function
found and the ref of the argument, and nothing else: the ref of the receiver
is neither the callee nor among the arguments, so the host is not told what
to call the method on. -/
theorem Call_invoke_has_no_receiver :
    Object.Call Sample.globals Sample.host 0
        { Value := MakeValue Sample.hello, methods := none } "indexOf"
        [{ ValueOf := MakeValue Sample.boom }] [] =
      (.ok (MakeValue Sample.one, none),
        [.valueGet Sample.hello "indexOf", .valueInvoke Sample.indexOf [Sample.boom]]) ∧
      Sample.hello ≠ Sample.indexOf ∧ Sample.hello ∉ [Sample.boom] := by
  refine ⟨by rfl, by decide, by decide⟩

/-! ## The lifetime tracker -/

/-- C14, as amended: `MakeValue(r)` keeps the ref, and it attaches the
finalizer cell, holding a copy of `r`, exactly when `r` has the NaN head and a
type flag other than none.  So there is a cell for every tagged ref with flag
object, string, symbol or function, the ref of the global object (index 5,
flag object) included, and there is none for undefined, NaN, zero, null, true,
false and for every number ref. -/
theorem MakeValue_tracker (r id : Nat) :
    (MakeValue r).Ref = r ∧
      ((MakeValue r).GCPtr = some r ↔
        ((r >>> 32) &&& NaNHead = NaNHead ∧ (r >>> 32) &&& 7 ≠ TypeFlagNone)) ∧
      ((MakeValue r).GCPtr = none ↔
        ¬ ((r >>> 32) &&& NaNHead = NaNHead ∧ (r >>> 32) &&& 7 ≠ TypeFlagNone)) ∧
      (MakeValue (PredefValue id TypeFlagObject).Ref).GCPtr =
        some (PredefValue id TypeFlagObject).Ref ∧
      (MakeValue (PredefValue id TypeFlagString).Ref).GCPtr =
        some (PredefValue id TypeFlagString).Ref ∧
      (MakeValue (PredefValue id TypeFlagSymbol).Ref).GCPtr =
        some (PredefValue id TypeFlagSymbol).Ref ∧
      (MakeValue (PredefValue id TypeFlagFunction).Ref).GCPtr =
        some (PredefValue id TypeFlagFunction).Ref ∧
      (MakeValue Global.Value.Ref).GCPtr = some Global.Value.Ref ∧
      (MakeValue Undefined.Ref).GCPtr = none ∧ (MakeValue ValueNaN.Ref).GCPtr = none ∧
      (MakeValue ValueZero.Ref).GCPtr = none ∧ (MakeValue Null.Ref).GCPtr = none ∧
      (MakeValue Boolean.True.Value.Ref).GCPtr = none ∧
      (MakeValue Boolean.False.Value.Ref).GCPtr = none ∧
      (Value.IsNumber { Ref := r, GCPtr := none } = true → (MakeValue r).GCPtr = none) := by
  have hiff : (MakeValue r).GCPtr = some r ↔
      ((r >>> 32) &&& NaNHead = NaNHead ∧ (r >>> 32) &&& 7 ≠ TypeFlagNone) := by
    unfold MakeValue
    simp only
    split
    · rename_i hc
      exact ⟨fun _ => hc, fun _ => rfl⟩
    · rename_i hc
      exact ⟨fun he => Option.noConfusion he, fun hh => absurd hh hc⟩
  have hnone : (MakeValue r).GCPtr = none ↔
      ¬ ((r >>> 32) &&& NaNHead = NaNHead ∧ (r >>> 32) &&& 7 ≠ TypeFlagNone) := by
    unfold MakeValue
    simp only
    split
    · rename_i hc
      exact ⟨fun he => Option.noConfusion he, fun hh => absurd hc hh⟩
    · rename_i hc
      exact ⟨fun _ => hc, fun _ => rfl⟩
  have htag : ∀ flag, flag % 2 ^ 8 % 8 ≠ 0 → flag % 2 ^ 8 < 8 →
      (MakeValue (PredefValue id flag).Ref).GCPtr = some (PredefValue id flag).Ref := by
    intro flag hf hlt
    unfold MakeValue
    simp only
    rw [if_pos]
    rw [and_NaNHead_eq_iff, and_seven, Nat.shiftRight_eq_div_pow, PredefValue_Ref]
    have h2 : id % 2 ^ 32 < 2 ^ 32 := Nat.mod_lt _ (by decide)
    simp only [NaNHead, TypeFlagNone, Ref, Nat.reducePow] at *
    omega
  refine ⟨MakeValue_Ref r, hiff, hnone, htag _ (by decide) (by decide),
    htag _ (by decide) (by decide), htag _ (by decide) (by decide),
    htag _ (by decide) (by decide), by decide, by decide, by decide, by decide, by decide,
    by decide, by decide, ?_⟩
  intro hn
  rw [hnone]
  rintro ⟨hh, hf⟩
  rw [IsNumber_iff] at hn
  rw [and_NaNHead_eq_iff, Nat.shiftRight_eq_div_pow] at hh
  rw [and_seven, Nat.shiftRight_eq_div_pow] at hf
  simp only [TypeFlagNone, Ref, Nat.reducePow] at *
  omega

/-- C14, as stated, fails at the ref of the global object: it is the reserved
ref with index 5, and `MakeValue` on it attaches a finalizer cell, because its
type flag is object. -/
theorem MakeValue_tracks_global :
    Global.Value = PredefValue 5 TypeFlagObject ∧
      (MakeValue Global.Value.Ref).Ref = Global.Value.Ref ∧
      (MakeValue Global.Value.Ref).GCPtr = some Global.Value.Ref ∧
      (MakeValue Global.Value.Ref).GCPtr ≠ none := by
  refine ⟨rfl, by decide, by decide, by decide⟩

/-! ## `v.String()` -/

/-- C15, at the failing input: the bigint `0n` on the sample host.  Its type
is bigint, and `String` panics with "bad type": the switch of `String` has no
arm for `TypeBigInt`. -/
theorem String_panics_on_bigint :
    ((MakeValue Sample.bigZero).TypeOf Sample.globals Sample.host 1 []).1 = .ok TypeBigInt ∧
      (MakeValue Sample.bigZero).StringOf Sample.globals Sample.host 1 [] =
        (.panic (.str "bad type"),
          [.valueGet Sample.reflect "constructor",
            .valueInvoke Sample.objectCtor [Sample.bigZero], .valueGet Sample.reflect "get",
            .valueInvoke Sample.reflectGet [Sample.bigZeroObject, Sample.constructorStr],
            .valueGet Global.Value.Ref "BigInt"]) := by
  refine ⟨by rfl, by rfl⟩

/-! ## The callback registry -/

theorem runOps_append (a b : List RegistryOp) (x : Registry × List (Nat × GoFunc)) :
    runOps (a ++ b) x = runOps b (runOps a x) := by
  induction a generalizing x with
  | nil => rfl
  | cons op a ih =>
    obtain ⟨s, live⟩ := x
    cases op with
    | WrapFunction fn => exact ih _
    | Release f => exact ih _

theorem RegistryInv_assign (c0 n : Nat) (s : Registry) (live : List (Nat × GoFunc))
    (fn : GoFunc) (hi : RegistryInv c0 n s live) (hn : n < 2 ^ 32) :
    RegistryInv c0 (n + 1) (s.assign fn).2 (live ++ [((s.assign fn).1, fn)]) := by
  obtain ⟨hc, hk, hd, hf⟩ := hi
  have hfresh : ∀ e ∈ live, e.1 ≠ s.nextFuncID := by
    intro e he heq
    obtain ⟨k, hkn, hke⟩ := hk e he
    rw [hke, hc] at heq
    simp only [Nat.reducePow] at *
    omega
  refine ⟨?_, ?_, ?_, ?_⟩
  · show (s.nextFuncID + 1) % 2 ^ 32 = (c0 + (n + 1)) % 2 ^ 32
    rw [hc]
    simp only [Nat.reducePow]
    omega
  · intro e he
    rcases List.mem_append.mp he with h | h
    · obtain ⟨k, hkn, hke⟩ := hk e h
      exact ⟨k, by omega, hke⟩
    · rw [List.mem_singleton] at h
      exact ⟨n, by omega, by rw [h]; exact hc⟩
  · rw [List.map_append, List.nodup_append]
    refine ⟨hd, by simp, ?_⟩
    intro a ha hb
    obtain ⟨e, he, hea⟩ := List.mem_map.mp ha
    simp only [List.map_cons, List.map_nil, List.mem_singleton] at hb
    exact hfresh e he (by rw [hea, hb]; rfl)
  · intro e he
    rcases List.mem_append.mp he with h | h
    · show (if e.1 = s.nextFuncID then some fn else s.funcs e.1) = some e.2
      rw [if_neg (hfresh e h)]
      exact hf e h
    · rw [List.mem_singleton] at h
      rw [h]
      show (if s.nextFuncID = s.nextFuncID then some fn else s.funcs s.nextFuncID) = some fn
      rw [if_pos rfl]

theorem RegistryInv_release (c0 n : Nat) (s : Registry) (live : List (Nat × GoFunc))
    (f : Function) (hi : RegistryInv c0 n s live) :
    RegistryInv c0 n (f.Release s) (live.filter fun e => e.1 != f.id) := by
  obtain ⟨hc, hk, hd, hf⟩ := hi
  refine ⟨hc, fun e he => hk e (List.mem_of_mem_filter he), ?_, ?_⟩
  · exact (List.Nodup.sublist ((List.filter_sublist live).map Prod.fst) hd)
  · intro e he
    have hne : e.1 ≠ f.id := by
      have := (List.mem_filter.mp he).2
      simpa using this
    show (if e.1 = f.id then none else s.funcs e.1) = some e.2
    rw [if_neg hne]
    exact hf e (List.mem_of_mem_filter he)

theorem RegistryInv_runOps (c0 : Nat) (ops : List RegistryOp) :
    ∀ (n : Nat) (s : Registry) (live : List (Nat × GoFunc)), RegistryInv c0 n s live →
      n + wrapCount ops ≤ 2 ^ 32 →
      RegistryInv c0 (n + wrapCount ops) (runOps ops (s, live)).1 (runOps ops (s, live)).2 := by
  induction ops with
  | nil => intro n s live hi _; exact hi
  | cons op ops ih =>
    intro n s live hi hn
    cases op with
    | WrapFunction fn =>
      have h1 : wrapCount (RegistryOp.WrapFunction fn :: ops) = wrapCount ops + 1 := rfl
      rw [h1] at hn ⊢
      have := ih (n + 1) _ _ (RegistryInv_assign c0 n s live fn hi (by omega)) (by omega)
      rw [show n + (wrapCount ops + 1) = n + 1 + wrapCount ops by omega]
      exact this
    | Release f =>
      exact ih n _ _ (RegistryInv_release c0 n s live f hi) hn

/-- The computation of `WrapFunction`, when it returns a nil error, returns a
`Function` with the ID given out in the locked section. -/
theorem WrapFunction_id (g : Globals) (h : Host) (fuel : Nat) (s : Registry) (fn : GoFunc)
    (t t' : List Crossing) (f : Function)
    (hr : (WrapFunction g h fuel s fn).1 t = (.ok (f, none), t')) : f.id = s.nextFuncID := by
  unfold WrapFunction at hr
  simp only at hr
  obtain ⟨x, t1, _, hr⟩ := Exec.bind_eq_ok hr
  obtain ⟨r, t2, _, hr⟩ := Exec.bind_eq_ok hr
  obtain ⟨wrap, err⟩ := r
  cases err with
  | some e =>
    simp only at hr
    obtain ⟨msg, t3, _, hr⟩ := Exec.bind_eq_ok hr
    have e1 := congrArg Prod.fst hr
    simp only [Exec.pure_run] at e1
    injection e1 with e1
    injection e1 with _ e1
    exact Option.noConfusion e1
  | none =>
    simp only at hr
    have e1 := congrArg Prod.fst hr
    simp only [Exec.pure_run] at e1
    injection e1 with e1
    injection e1 with e1 _
    rw [← e1]
    rfl

/-- C12, as amended: `WrapFunction` gives the new function the current value
of `nextFuncID`, moves the counter on by one (modulo `2 ^ 32`, it is a
`uint32`) and stores the function under that ID, whatever the host answers
afterwards; `Release` only drops the entry of its ID.  So for every run of
`WrapFunction` and `Release` calls that holds at most `2 ^ 32` calls of
`WrapFunction`, the registrations made and not yet released have pairwise
distinct IDs, and each of these IDs maps to the function registered under
it. -/
theorem registry_ids_distinct (g : Globals) (h : Host) (fuel : Nat) (s0 s : Registry)
    (fn : GoFunc) (ops : List RegistryOp) (h0 : s0.nextFuncID < 2 ^ 32)
    (hc : wrapCount ops ≤ 2 ^ 32) :
    ((WrapFunction g h fuel s fn).2 = (s.assign fn).2 ∧
        (s.assign fn).1 = s.nextFuncID ∧
        (s.assign fn).2.nextFuncID = (s.nextFuncID + 1) % 2 ^ 32 ∧
        (s.assign fn).2.funcs s.nextFuncID = some fn ∧
        (∀ k, k ≠ s.nextFuncID → (s.assign fn).2.funcs k = s.funcs k) ∧
        ∀ t t' f, (WrapFunction g h fuel s fn).1 t = (.ok (f, none), t') →
          f.id = s.nextFuncID) ∧
      ((runOps ops (s0, [])).2.map Prod.fst).Nodup ∧
      ∀ e ∈ (runOps ops (s0, [])).2, (runOps ops (s0, [])).1.funcs e.1 = some e.2 := by
  refine ⟨⟨rfl, rfl, rfl, ?_, ?_, fun t t' f hr => WrapFunction_id g h fuel s fn t t' f hr⟩, ?_⟩
  · show (if s.nextFuncID = s.nextFuncID then some fn else s.funcs s.nextFuncID) = some fn
    rw [if_pos rfl]
  · intro k hk
    show (if k = s.nextFuncID then some fn else s.funcs k) = s.funcs k
    rw [if_neg hk]
  · have hi : RegistryInv s0.nextFuncID 0 s0 [] := by
      refine ⟨?_, ?_, ?_, ?_⟩
      · rw [Nat.add_zero, Nat.mod_eq_of_lt h0]
      · intro e he; cases he
      · exact List.nodup_nil
      · intro e he; cases he
    have := RegistryInv_runOps s0.nextFuncID ops 0 s0 [] hi (by omega)
    exact ⟨this.2.2.1, this.2.2.2⟩

/-- C12, on a short run from the start of the program: two functions are
registered and the first is released. -/
theorem registry_ids_distinct_witness :
    ((runOps [.WrapFunction Sample.fnNil, .WrapFunction Sample.fnPanic,
        .Release { Value := Undefined, id := 1 }] (Registry.start, [])).2.map Prod.fst).Nodup ∧
      ∀ e ∈ (runOps [.WrapFunction Sample.fnNil, .WrapFunction Sample.fnPanic,
          .Release { Value := Undefined, id := 1 }] (Registry.start, [])).2,
        (runOps [.WrapFunction Sample.fnNil, .WrapFunction Sample.fnPanic,
          .Release { Value := Undefined, id := 1 }] (Registry.start, [])).1.funcs e.1 =
          some e.2 :=
  (registry_ids_distinct Sample.globals Sample.host 0 Registry.start Registry.start
    Sample.fnNil [.WrapFunction Sample.fnNil, .WrapFunction Sample.fnPanic,
      .Release { Value := Undefined, id := 1 }] (by decide) (by decide)).2

/-- The counter after `n` registrations in a row. -/
theorem runOps_replicate_nextFuncID (fn : GoFunc) (n : Nat) :
    ∀ (s : Registry) (live : List (Nat × GoFunc)), s.nextFuncID < 2 ^ 32 →
      (runOps (List.replicate n (.WrapFunction fn)) (s, live)).1.nextFuncID =
        (s.nextFuncID + n) % 2 ^ 32 := by
  induction n with
  | zero =>
    intro s live hs
    show s.nextFuncID = (s.nextFuncID + 0) % 2 ^ 32
    rw [Nat.add_zero, Nat.mod_eq_of_lt hs]
  | succ n ih =>
    intro s live hs
    rw [List.replicate_succ]
    show (runOps (List.replicate n (.WrapFunction fn))
      ((s.assign fn).2, live ++ [((s.assign fn).1, fn)])).1.nextFuncID = _
    rw [ih _ _ (Nat.mod_lt _ (by decide))]
    show ((s.nextFuncID + 1) % 2 ^ 32 + n) % 2 ^ 32 = (s.nextFuncID + (n + 1)) % 2 ^ 32
    simp only [Nat.reducePow]
    omega

/-- The registrations after `n` registrations in a row. -/
theorem runOps_replicate_live (fn : GoFunc) (n : Nat) :
    ∀ (s : Registry) (live : List (Nat × GoFunc)), s.nextFuncID < 2 ^ 32 →
      (runOps (List.replicate n (.WrapFunction fn)) (s, live)).2 =
        live ++ (List.range n).map fun k => ((s.nextFuncID + k) % 2 ^ 32, fn) := by
  induction n with
  | zero =>
    intro s live _
    show live = live ++ []
    rw [List.append_nil]
  | succ n ih =>
    intro s live hs
    rw [List.replicate_succ]
    show (runOps (List.replicate n (.WrapFunction fn))
      ((s.assign fn).2, live ++ [((s.assign fn).1, fn)])).2 = _
    rw [ih _ _ (Nat.mod_lt _ (by decide)), List.range_succ_eq_map, List.map_cons,
      List.map_map, List.append_assoc]
    congr 1
    show (s.nextFuncID, fn) :: _ = ((s.nextFuncID + 0) % 2 ^ 32, fn) :: _
    rw [Nat.add_zero, Nat.mod_eq_of_lt hs]
    congr 1
    apply List.map_congr_left
    intro k _
    show (((s.nextFuncID + 1) % 2 ^ 32 + k) % 2 ^ 32, fn) =
      ((s.nextFuncID + (k + 1)) % 2 ^ 32, fn)
    congr 1
    simp only [Nat.reducePow]
    omega

/-- The last of `n + 1` registrations in a row is the one the map holds under
its ID. -/
theorem runOps_replicate_last (fn : GoFunc) (n : Nat) (s : Registry)
    (live : List (Nat × GoFunc)) (hs : s.nextFuncID < 2 ^ 32) :
    (runOps (List.replicate (n + 1) (.WrapFunction fn)) (s, live)).1.funcs
      ((s.nextFuncID + n) % 2 ^ 32) = some fn := by
  rw [List.replicate_succ', runOps_append]
  have hc := runOps_replicate_nextFuncID fn n s live hs
  rcases hx : runOps (List.replicate n (.WrapFunction fn)) (s, live) with ⟨s1, live1⟩
  rw [hx] at hc
  simp only at hc
  show (if (s.nextFuncID + n) % 2 ^ 32 = s1.nextFuncID then some fn
    else s1.funcs ((s.nextFuncID + n) % 2 ^ 32)) = some fn
  rw [if_pos hc.symm]

theorem fnNil_ne_fnPanic : Sample.fnNil ≠ Sample.fnPanic := by
  intro he
  have h1 : Sample.fnNil Undefined [] [] = Sample.fnPanic Undefined [] [] := by rw [he]
  exact Outcome.noConfusion (congrArg Prod.fst h1)

/-- C12, as stated, fails once the counter has gone round: from the start of
the program, one registration of a first function and then `2 ^ 32`
registrations of a second one, with no release.  The first function and the
last registration of the second are both registered and not released, both
under the ID 1, and the map holds the second function under that ID. -/
theorem registry_id_reused_after_wraparound :
    (1, Sample.fnNil) ∈ (runOps (.WrapFunction Sample.fnNil ::
        List.replicate (2 ^ 32) (.WrapFunction Sample.fnPanic)) (Registry.start, [])).2 ∧
      (1, Sample.fnPanic) ∈ (runOps (.WrapFunction Sample.fnNil ::
        List.replicate (2 ^ 32) (.WrapFunction Sample.fnPanic)) (Registry.start, [])).2 ∧
      Sample.fnNil ≠ Sample.fnPanic ∧
      (runOps (.WrapFunction Sample.fnNil ::
        List.replicate (2 ^ 32) (.WrapFunction Sample.fnPanic))
        (Registry.start, [])).1.funcs 1 = some Sample.fnPanic ∧
      ¬ ((runOps (.WrapFunction Sample.fnNil ::
        List.replicate (2 ^ 32) (.WrapFunction Sample.fnPanic))
        (Registry.start, [])).2.map Prod.fst).Nodup := by
  have hstep : runOps (.WrapFunction Sample.fnNil ::
      List.replicate (2 ^ 32) (.WrapFunction Sample.fnPanic)) (Registry.start, []) =
      runOps (List.replicate (2 ^ 32) (.WrapFunction Sample.fnPanic))
        ((Registry.start.assign Sample.fnNil).2, [(1, Sample.fnNil)]) := by
    rw [runOps]
    rfl
  have hs : (Registry.start.assign Sample.fnNil).2.nextFuncID = 2 := by decide
  have hlive := runOps_replicate_live Sample.fnPanic (2 ^ 32)
    (Registry.start.assign Sample.fnNil).2 [(1, Sample.fnNil)] (by rw [hs]; decide)
  rw [hs] at hlive
  have hmem : (1, Sample.fnPanic) ∈
      (List.range (2 ^ 32)).map fun k => ((2 + k) % 2 ^ 32, Sample.fnPanic) := by
    rw [List.mem_map]
    exact ⟨2 ^ 32 - 1, List.mem_range.mpr (by decide), by
      congr 1⟩
  have hlast := runOps_replicate_last Sample.fnPanic (2 ^ 32 - 1)
    (Registry.start.assign Sample.fnNil).2 [(1, Sample.fnNil)] (by rw [hs]; decide)
  rw [hs, show 2 ^ 32 - 1 + 1 = 2 ^ 32 by decide,
    show (2 + (2 ^ 32 - 1)) % 2 ^ 32 = 1 by decide] at hlast
  rw [hstep, hlive]
  refine ⟨List.mem_append.mpr (Or.inl (List.mem_singleton.mpr rfl)),
    List.mem_append.mpr (Or.inr hmem), fnNil_ne_fnPanic, hlast, ?_⟩
  rw [List.singleton_append, List.map_cons, List.nodup_cons]
  intro hn
  exact hn.1 (List.mem_map.mpr ⟨(1, Sample.fnPanic), hmem, rfl⟩)

/-! ## The reverse entry -/

theorem ValueOf_Valuer (g : Globals) (h : Host) (fuel : Nat) (x : Valuer) (t : List Crossing) :
    ValueOf g h fuel (.Valuer x) t = (.ok x.ValueOf, t) := by
  cases fuel <;> rfl

theorem ObjectOf_of_IsObject (g : Globals) (h : Host) (fuel : Nat) (v : Value)
    (t : List Crossing) (ty : ValueType) (hty : v.TypeOf g h fuel t = (.ok ty, t))
    (ho : ty.IsObject = true) :
    ObjectOf g h fuel { ValueOf := v } t =
      (.ok ({ Value := v, methods := none }, true), t) := by
  rw [ObjectOf, ObjectOfWith, Exec.bind_ok hty]
  simp only [ho, Bool.not_true, Bool.false_eq_true, if_false]
  rfl

/-- The reverse entry up to the lookup in the registry: with a staged call of
the ID `id`, other than 0, `handleEvent` makes the three crossings of
`pendingTrace` and then goes by what the registry holds under `id`. -/
theorem handleEvent_staged (g : Globals) (h : Host) (fuel : Nat) (s : Registry)
    (t : List Crossing) (cb : Value) (id : Nat) (hst : Staged g h fuel t cb id)
    (hne : id ≠ 0) (hs : s.funcs id = none) :
    handleEvent g h fuel s t =
      ((g.Console.Call g h fuel "error" [{ ValueOf := g.releasedErrMsg.Object.Value }]) >>=
        fun _ => (pure () : Exec Unit)) (pendingTrace g cb.Ref t) := by
  obtain ⟨hcb, ⟨tp, hp, hpo⟩, ⟨tg, hg, hgo⟩, hnum, hid⟩ := hst
  have h1 : g.Go.Get h "_pendingEvent" t =
      (.ok cb, t ++ [.valueGet g.Go.Value.Ref "_pendingEvent"]) := by
    rw [hcb]
    rfl
  have h2 := ObjectOf_of_IsObject g h fuel cb _ tp hp hpo
  have h3 : g.Go.Value.Set g h fuel "_pendingEvent" (.Valuer { ValueOf := Null })
      (t ++ [.valueGet g.Go.Value.Ref "_pendingEvent"]) =
      (.ok (), t ++ [.valueGet g.Go.Value.Ref "_pendingEvent"] ++
        [.valueSet g.Go.Value.Ref "_pendingEvent" Null.Ref]) := by
    rw [Value.Set, Value.SetWith, Exec.bind_ok hg]
    simp only [hgo, Bool.not_true, Bool.false_eq_true, if_false]
    rw [Exec.bind_ok (ValueOf_Valuer g h fuel _ _)]
    rfl
  have hl : t ++ [Crossing.valueGet g.Go.Value.Ref "_pendingEvent"] ++
      [Crossing.valueSet g.Go.Value.Ref "_pendingEvent" Null.Ref] =
      t ++ [Crossing.valueGet g.Go.Value.Ref "_pendingEvent",
        Crossing.valueSet g.Go.Value.Ref "_pendingEvent" Null.Ref] := by
    rw [List.append_assoc]
    rfl
  rw [hl] at h3
  have h4 : Object.Get h { Value := cb, methods := none } "id"
      (t ++ [Crossing.valueGet g.Go.Value.Ref "_pendingEvent",
        Crossing.valueSet g.Go.Value.Ref "_pendingEvent" Null.Ref]) =
      (.ok (MakeValue (h.valueGet (t ++ [Crossing.valueGet g.Go.Value.Ref "_pendingEvent",
          Crossing.valueSet g.Go.Value.Ref "_pendingEvent" Null.Ref]) cb.Ref "id")),
        pendingTrace g cb.Ref t) := by
    show _ = (_, t ++ [_, _, _])
    have : t ++ [Crossing.valueGet g.Go.Value.Ref "_pendingEvent",
        Crossing.valueSet g.Go.Value.Ref "_pendingEvent" Null.Ref,
        Crossing.valueGet cb.Ref "id"] =
        t ++ [Crossing.valueGet g.Go.Value.Ref "_pendingEvent",
          Crossing.valueSet g.Go.Value.Ref "_pendingEvent" Null.Ref] ++
          [Crossing.valueGet cb.Ref "id"] := by
      rw [List.append_assoc]
      rfl
    rw [this]
    rfl
  have h5 := float_of_IsNumber g h fuel _ "Value.Int" (pendingTrace g cb.Ref t) hnum
  have h6 : Value.Int g h fuel
      (MakeValue (h.valueGet (t ++ [Crossing.valueGet g.Go.Value.Ref "_pendingEvent",
        Crossing.valueSet g.Go.Value.Ref "_pendingEvent" Null.Ref]) cb.Ref "id"))
      (pendingTrace g cb.Ref t) = (.ok (float64.toInt
        (if (MakeValue (h.valueGet (t ++ [Crossing.valueGet g.Go.Value.Ref "_pendingEvent",
          Crossing.valueSet g.Go.Value.Ref "_pendingEvent" Null.Ref]) cb.Ref "id")).Ref =
            ValueZero.Ref
        then float64.zero
        else (MakeValue (h.valueGet (t ++ [Crossing.valueGet g.Go.Value.Ref "_pendingEvent",
          Crossing.valueSet g.Go.Value.Ref "_pendingEvent" Null.Ref]) cb.Ref "id")).Ref)),
        pendingTrace g cb.Ref t) := by
    rw [Value.Int, Exec.bind_ok h5]
    rfl
  rw [handleEvent, Exec.bind_ok h1, Exec.bind_ok h2]
  simp only [Bool.not_true, Bool.false_eq_true, if_false]
  rw [Exec.bind_ok h3, Exec.bind_ok h4, Exec.bind_ok h6]
  simp only [hid, hne, if_false, hs]

theorem assign_fst (s : Registry) (fn : GoFunc) : (s.assign fn).1 = s.nextFuncID := rfl

/-- C13, as amended: `f.Release()` drops the entry of the ID of `f` and leaves
every other entry and the counter as they were.  After it, when the host has
staged a call with that ID and the ID is not 0 (the sentinel on which
`handleEvent` blocks), `handleEvent` reads the pending event, calls
`Console.Call("error", releasedErrMsg)` and returns when that call returns,
its error dropped.  The run is the same whatever the registry holds under the
other IDs, so no registered function takes part in it; after the three
crossings that read the event it only makes lookups, invokes and string
reads, so nothing is stored in the `result` slot of the descriptor; and on a
host whose `console.error` is a function that returns, the diagnostic is the
one invoke of that function with the ref of the message, after which
`handleEvent` returns. -/
theorem released_call_is_reported (g : Globals) (h : Host) (fuel : Nat) (s : Registry)
    (f : Function) (t : List Crossing) (cb : Value)
    (hst : Staged g h fuel t cb f.id) (hne : f.id ≠ 0) :
    ((f.Release s).funcs f.id = none ∧ (∀ k, k ≠ f.id → (f.Release s).funcs k = s.funcs k) ∧
        (f.Release s).nextFuncID = s.nextFuncID) ∧
      handleEvent g h fuel (f.Release s) t =
        ((g.Console.Call g h fuel "error" [{ ValueOf := g.releasedErrMsg.Object.Value }]) >>=
          fun _ => (pure () : Exec Unit)) (pendingTrace g cb.Ref t) ∧
      (∀ s' : Registry, s'.funcs f.id = none →
        handleEvent g h fuel s' t = handleEvent g h fuel (f.Release s) t) ∧
      (∀ r t', g.Console.Call g h fuel "error" [{ ValueOf := g.releasedErrMsg.Object.Value }]
          (pendingTrace g cb.Ref t) = (.ok r, t') →
        handleEvent g h fuel (f.Release s) t = (.ok (), t')) ∧
      (∃ ext, (handleEvent g h fuel (f.Release s) t).2 = pendingTrace g cb.Ref t ++ ext ∧
        ∀ c ∈ ext, c.isQuery = true) ∧
      (∀ x, Crossing.valueSet cb.Ref "result" x ∈ (handleEvent g h fuel (f.Release s) t).2 →
        Crossing.valueSet cb.Ref "result" x ∈ t) ∧
      (g.Console.methods = none →
        ∀ t1, (MakeValue (h.valueGet (pendingTrace g cb.Ref t) g.Console.Value.Ref
            "error")).TypeOf g h fuel
            (pendingTrace g cb.Ref t ++ [.valueGet g.Console.Value.Ref "error"]) =
            (.ok TypeFunction, t1) →
          (h.valueInvoke (pendingTrace g cb.Ref t ++ [.valueGet g.Console.Value.Ref "error"])
            (h.valueGet (pendingTrace g cb.Ref t) g.Console.Value.Ref "error")
            [g.releasedErrMsg.Object.Value.Ref]).2 = true →
          handleEvent g h fuel (f.Release s) t =
            (.ok (), pendingTrace g cb.Ref t ++ [.valueGet g.Console.Value.Ref "error",
              .valueInvoke (h.valueGet (pendingTrace g cb.Ref t) g.Console.Value.Ref "error")
                [g.releasedErrMsg.Object.Value.Ref]])) := by
  have hrel : (f.Release s).funcs f.id = none := by
    show (if f.id = f.id then none else s.funcs f.id) = none
    rw [if_pos rfl]
  have hev := handleEvent_staged g h fuel (f.Release s) t cb f.id hst hne hrel
  have hq : QueryOnly ((g.Console.Call g h fuel "error"
      [{ ValueOf := g.releasedErrMsg.Object.Value }]) >>= fun _ => (pure () : Exec Unit)) :=
    Exec.Within.bind (CallWith_queryOnly h (TypeOf_queryOnly g h fuel) _ _ _)
      (fun _ => Exec.Within.pure _)
  obtain ⟨⟨ext, he, hP⟩, _⟩ := hq (pendingTrace g cb.Ref t)
  rw [← hev] at he
  refine ⟨⟨hrel, ?_, rfl⟩, hev, ?_, ?_, ⟨ext, he, hP⟩, ?_, ?_⟩
  · intro k hk
    show (if k = f.id then none else s.funcs k) = s.funcs k
    rw [if_neg hk]
  · intro s' hs'
    rw [hev, handleEvent_staged g h fuel s' t cb f.id hst hne hs']
  · intro r t' hr
    rw [hev, Exec.bind_ok hr]
    rfl
  · intro x hx
    rw [he, pendingTrace, List.mem_append, List.mem_append] at hx
    rcases hx with (hx | hx) | hx
    · exact hx
    · simp only [List.mem_cons, List.mem_singleton, List.not_mem_nil, or_false] at hx
      rcases hx with hx | hx | hx
      · exact Crossing.noConfusion hx
      · injection hx with _ hp _
        exact absurd hp (by decide)
      · exact Crossing.noConfusion hx
    · exact Bool.noConfusion (hP _ hx)
  · intro hm t1 hty hok
    have hc := Call_eq_of_function g h fuel g.Console "error"
      [{ ValueOf := g.releasedErrMsg.Object.Value }] (pendingTrace g cb.Ref t) t1 hm hty
    have hargs : (MakeArgs [({ ValueOf := g.releasedErrMsg.Object.Value } : Valuer)]).2 =
        [g.releasedErrMsg.Object.Value.Ref] := rfl
    rw [hargs] at hc
    rw [hev, Exec.bind_ok (by rw [hc, hok]; exact resultOf_success _ _ _)]
    rfl

/-- C13, on the event host: the function with the ID 5 was released, the host
stages a call with the ID 5, and `handleEvent` reads the event, invokes
`console.error` with the message and returns.  The registry still holds a
function that would panic, under the ID 7. -/
theorem released_call_is_reported_witness :
    handleEvent Sample.globals (Sample.eventHost Sample.five) 0
        (Function.Release Sample.registry { Value := Undefined, id := 5 }) [] =
      (.ok (), pendingTrace Sample.globals (MakeValue Sample.pending).Ref [] ++
        [.valueGet Sample.globals.Console.Value.Ref "error",
          .valueInvoke ((Sample.eventHost Sample.five).valueGet
              (pendingTrace Sample.globals (MakeValue Sample.pending).Ref [])
              Sample.globals.Console.Value.Ref "error")
            [Sample.globals.releasedErrMsg.Object.Value.Ref]]) :=
  (released_call_is_reported Sample.globals (Sample.eventHost Sample.five) 0
    Sample.registry { Value := Undefined, id := 5 } [] (MakeValue Sample.pending)
    ⟨rfl, ⟨TypeObject, rfl, rfl⟩, ⟨TypeObject, rfl, rfl⟩, by decide, by decide⟩
    (by decide)).2.2.2.2.2.2 rfl _ (by rfl) (by rfl)

/-- C13, as stated, fails for the ID 0.  After `2 ^ 32 - 1` registrations from
the start of the program the counter is 0, so the next function registered
gets the ID 0.  It is released.  The host stages a call with the ID 0, and
`handleEvent` blocks for ever after reading the event: no diagnostic is made
and the call does not return. -/
theorem released_call_with_id_zero_blocks :
    ((runOps (List.replicate (2 ^ 32 - 1) (.WrapFunction Sample.fnNil))
        (Registry.start, [])).1.assign Sample.fnPanic).1 = 0 ∧
      Staged Sample.globals (Sample.eventHost ValueZero.Ref) 0 [] (MakeValue Sample.pending) 0 ∧
      handleEvent Sample.globals (Sample.eventHost ValueZero.Ref) 0
          (Function.Release
            ((runOps (List.replicate (2 ^ 32 - 1) (.WrapFunction Sample.fnNil))
              (Registry.start, [])).1.assign Sample.fnPanic).2
            { Value := Undefined, id := 0 }) [] =
        (.outOfFuel, [.valueGet Sample.goObj "_pendingEvent",
          .valueSet Sample.goObj "_pendingEvent" Null.Ref,
          .valueGet Sample.pending "id"]) := by
  refine ⟨?_, ⟨rfl, ⟨TypeObject, rfl, rfl⟩, ⟨TypeObject, rfl, rfl⟩, by decide, by decide⟩, ?_⟩
  · rw [assign_fst, runOps_replicate_nextFuncID Sample.fnNil (2 ^ 32 - 1) Registry.start []
      (by decide)]
    rfl
  · generalize Function.Release _ _ = s
    rfl

end gs
